import Mathlib

/-!
# VideoAnnotationTool (static/app.js): a shallow embedding

The class `VideoAnnotationTool` of `static/app.js` is embedded as a record `State` of its
fields and one Lean function per method, each taking the state before the call and returning
the state after it.

Modelling decisions, all of them visible in the definitions below:

* **Numbers.** A JavaScript number is a `Num`: a finite value (an exact rational, so the
  rounding of doubles is not modelled and the two zeros are identified, taken as `+0`),
  `Infinity`, `-Infinity` or `NaN`. `Math.min`, `Math.max`, `Math.abs`, `Math.round`, `<`,
  `+`, `-`, `*`, `/` follow ECMAScript on these values.
* **Objects.** Box objects are mutable and shared (`currentBox` aliases an element of
  `selectionBoxes` during a resize), so boxes live in a store `heap : Ref → Box`; a reference
  is a natural number, `nextRef` is the next unused one, and an object literal allocates at
  `nextRef`.
* **Environment.** What a method reads from outside the object is a parameter: the clock
  (`Date.now()`), the pointer event, the rectangles returned by `getBoundingClientRect()`
  (`Layout`), and the outcome of the `fetch` of `saveAnnotation`. What it does to the outside
  is logged in the state: `sent` (request bodies posted to `/api/save-annotation`), `alerts`,
  `console`, `location`, `timers` (live `setInterval` handles), `submitDisabled`
  (`submitBtn.disabled`).
* **DOM.** Of a box's DOM element the model keeps the group number shown in its label
  (`label`) and the inline position written by `updateBoxPosition` (`style`). Other DOM
  writes (cursor, button classes, pointer-events, the text summaries of `updateSelectionInfo`,
  `updateDisplay`, `updateWatchedStatus`, the image `src` of `loadVideoFrame`) change no field
  of the object and are left out.
* **Exceptions.** `videos[i]` may be `undefined`; reading a property of it throws a
  `TypeError`. Methods in which this can happen return a `Result`.
* **Async.** `submitAnnotation` runs to completion: no other event handler is interleaved
  between the request and its continuation.
* **Clock.** A call of a method takes one clock reading `now`; the reads of `Date.now()`
  during that call all return it.
* **Events.** `step` runs the handler of one `Event` (the listeners of `bindEvents`, the
  buttons made by `addBoxHandles`, the interval of `play`); `Reachable` closes a state under
  events. The startup requests `loadAnnotatorId` and `loadVideos` are not events: a session
  state is one in which `loadVideos` has answered.
-/

namespace VideoAnnotationTool

/-! ## JavaScript numbers -/

/-- A JavaScript number: finite (exact rational), `Infinity`, `-Infinity` or `NaN`. -/
inductive Num where
  | fin (q : ℚ)
  | posInf
  | negInf
  | nan
  deriving DecidableEq

namespace Num

/-- Unary minus. -/
def neg : Num → Num
  | fin q => fin (-q)
  | posInf => negInf
  | negInf => posInf
  | nan => nan

/-- The operator `+`. -/
def add : Num → Num → Num
  | fin a, fin b => fin (a + b)
  | nan, _ => nan
  | _, nan => nan
  | posInf, negInf => nan
  | negInf, posInf => nan
  | posInf, _ => posInf
  | _, posInf => posInf
  | negInf, _ => negInf
  | _, negInf => negInf

/-- The operator `-`. -/
def sub (a b : Num) : Num := add a (neg b)

/-- An infinity of the given sign times a finite value. -/
def mulInf (positive : Bool) (q : ℚ) : Num :=
  if q = 0 then nan
  else if (decide (0 < q)) = positive then posInf else negInf

/-- The operator `*`. -/
def mul : Num → Num → Num
  | fin a, fin b => fin (a * b)
  | nan, _ => nan
  | _, nan => nan
  | posInf, fin b => mulInf true b
  | negInf, fin b => mulInf false b
  | fin a, posInf => mulInf true a
  | fin a, negInf => mulInf false a
  | posInf, posInf => posInf
  | negInf, negInf => posInf
  | posInf, negInf => negInf
  | negInf, posInf => negInf

/-- The operator `/`. A zero divisor is `+0`: `x / 0` is `Infinity` for `x > 0`, `-Infinity`
for `x < 0` and `NaN` for `x = 0`. -/
def div : Num → Num → Num
  | fin a, fin b =>
    if b = 0 then (if a = 0 then nan else if 0 < a then posInf else negInf)
    else fin (a / b)
  | nan, _ => nan
  | _, nan => nan
  | fin _, posInf => fin 0
  | fin _, negInf => fin 0
  | posInf, fin b => if 0 ≤ b then posInf else negInf
  | negInf, fin b => if 0 ≤ b then negInf else posInf
  | posInf, posInf => nan
  | posInf, negInf => nan
  | negInf, posInf => nan
  | negInf, negInf => nan

/-- The operator `<`: false as soon as one side is `NaN`. -/
def lt : Num → Num → Bool
  | fin a, fin b => decide (a < b)
  | nan, _ => false
  | _, nan => false
  | negInf, negInf => false
  | negInf, _ => true
  | _, negInf => false
  | posInf, _ => false
  | fin _, posInf => true

/-- The operator `<=`: false as soon as one side is `NaN`. -/
def le : Num → Num → Bool
  | fin a, fin b => decide (a ≤ b)
  | nan, _ => false
  | _, nan => false
  | negInf, _ => true
  | _, posInf => true
  | posInf, _ => false
  | fin _, negInf => false

/-- The function `Math.min` of two arguments. -/
def min : Num → Num → Num
  | nan, _ => nan
  | _, nan => nan
  | a, b => if lt b a then b else a

/-- The function `Math.max` of two arguments. -/
def max : Num → Num → Num
  | nan, _ => nan
  | _, nan => nan
  | a, b => if lt a b then b else a

/-- The function `Math.abs`. -/
def abs : Num → Num
  | fin q => fin |q|
  | posInf => posInf
  | negInf => posInf
  | nan => nan

/-- The function `Math.round`: the nearest integer, a tie going up. -/
def round : Num → Num
  | fin q => fin (⌊q + 1 / 2⌋ : ℤ)
  | posInf => posInf
  | negInf => negInf
  | nan => nan

end Num

/-! ## Data -/

/-- A reference to a box object in the store. -/
abbrev Ref := Nat

/-- The value of `handle.dataset.handle`: one of the four handles made by `addBoxHandles`. -/
inductive Handle where
  | tl
  | tr
  | bl
  | br
  deriving DecidableEq

/-- The inline style written on a box element by `updateBoxPosition`, in pixels. -/
structure Style where
  left : Num
  top : Num
  width : Num
  height : Num
  deriving DecidableEq

/-- A box object. `confidence` is `none` for `null` and for a missing property; `label` is
the `N` of the text `Group N` in `labelElement`, `none` when there is no `labelElement`;
`style` is the position written on `element`, `none` for a fresh element. -/
structure Box where
  id : Int
  startX : Num
  startY : Num
  endX : Num
  endY : Num
  confidence : Option Nat
  label : Option Nat
  style : Option Style
  deriving DecidableEq

/-- The four stored coordinates of a box: `(startX, startY, endX, endY)`. -/
def Box.rect (b : Box) : Num × Num × Num × Num := (b.startX, b.startY, b.endX, b.endY)

/-- An element of `videos`, as served by `/api/detect-videos`. -/
structure Video where
  index : Int
  folder : String
  deriving DecidableEq

/-- An element of `groups` in the posted record. -/
structure Group where
  groupId : Nat
  bbox : List Num
  confidence : Option Nat
  deriving DecidableEq

/-- The field `videoInfo` of the posted record. -/
structure VideoInfo where
  totalFrames : Int
  annotationFrame : Nat
  coordinateSystem : String
  normalizedWidth : Num
  normalizedHeight : Num
  deriving DecidableEq

/-- The record posted by `submitAnnotation`. `timestamp` is the clock reading behind the ISO
string. -/
structure Annotation where
  timestamp : Int
  videoIndex : Nat
  globalIndex : Int
  videoFolder : String
  videoWatched : Bool
  totalWatchTimeMs : Int
  numberOfGroups : Nat
  groups : List Group
  videoInfo : VideoInfo
  deriving DecidableEq

/-- A live interval created by `setInterval` in `play`: its handle, its delay in
milliseconds, and the video captured by the callback. -/
structure Timer where
  handle : Nat
  delay : Num
  video : Option Video
  deriving DecidableEq

/-- A rectangle returned by `getBoundingClientRect()`. -/
structure DOMRect where
  left : ℚ
  top : ℚ
  width : ℚ
  height : ℚ
  deriving DecidableEq

/-- The layout at the time of a call: the rectangles of `annotationCanvas` and of
`annotationImage`. -/
structure Layout where
  canvas : DOMRect
  image : DOMRect
  deriving DecidableEq

/-- The part of a mouse event the methods read. -/
structure MouseEvent where
  clientX : ℚ
  clientY : ℚ
  deriving DecidableEq

/-- How the `fetch` of `saveAnnotation` ends: a response arrived (with its HTTP status), or
the promise was rejected (network failure). -/
inductive FetchOutcome where
  | fulfilled (status : Nat)
  | rejected
  deriving DecidableEq

/-- The fields of a `VideoAnnotationTool`, the box store, and the log of its effects. -/
structure State where
  currentVideoIndex : Nat
  globalVideoIndex : Int
  totalVideos : Nat
  videos : List Video
  totalFrames : Int
  frameRate : ℚ
  isPlaying : Bool
  currentFrame : Int
  hasWatchedVideo : Bool
  videoPlayStartTime : Option Int
  totalWatchTime : Int
  playbackSpeed : ℚ
  selectionBoxes : List Ref
  isDrawing : Bool
  isResizing : Bool
  currentBox : Option Ref
  resizeHandle : Option Handle
  playInterval : Option Nat
  heap : Ref → Box
  nextRef : Ref
  submitDisabled : Bool
  timers : List Timer
  nextTimer : Nat
  sent : List Annotation
  alerts : List String
  console : List String
  location : Option String

/-- The result of a method that may throw: the state it returned with, or the state it left
behind when a `TypeError` escaped it. -/
inductive Result where
  | ok (s : State)
  | threw (s : State)

/-- The state a result carries. -/
def Result.state : Result → State
  | .ok s => s
  | .threw s => s

/-- The constant `NORMALIZED_WIDTH`. -/
def NORMALIZED_WIDTH : Num := .fin 1920

/-- The constant `NORMALIZED_HEIGHT`. -/
def NORMALIZED_HEIGHT : Num := .fin 1080

/-- A box with no property set; the store holds it at every reference not yet allocated. -/
def Box.blank : Box :=
  { id := 0, startX := .nan, startY := .nan, endX := .nan, endY := .nan,
    confidence := none, label := none, style := none }

/-- The fields as the constructor sets them (before `loadVideos` answers). -/
def State.initial : State :=
  { currentVideoIndex := 0, globalVideoIndex := 0, totalVideos := 0, videos := [],
    totalFrames := 50, frameRate := 5, isPlaying := false, currentFrame := 0,
    hasWatchedVideo := false, videoPlayStartTime := none, totalWatchTime := 0,
    playbackSpeed := 1, selectionBoxes := [], isDrawing := false, isResizing := false,
    currentBox := none, resizeHandle := none, playInterval := none,
    heap := fun _ => Box.blank, nextRef := 0, submitDisabled := false, timers := [],
    nextTimer := 1, sent := [], alerts := [], console := [], location := none }

/-- The boxes of `selectionBoxes`, in order. -/
def State.boxes (s : State) : List Box := s.selectionBoxes.map s.heap

/-- Assignment to properties of the object behind a reference. -/
def State.update (s : State) (r : Ref) (f : Box → Box) : State :=
  { s with heap := Function.update s.heap r (f (s.heap r)) }

/-- Truthiness of a number-or-null field (`videoPlayStartTime`, `playInterval`): `null`
and `0` are falsy. -/
def truthy {α : Type} [Zero α] [DecidableEq α] : Option α → Bool
  | none => false
  | some x => decide (x ≠ 0)

/-! ## Geometry and display -/

/-- The position computed by `updateBoxPosition` for a box, from its stored coordinates and
the layout: `left`, `top`, `width` and `height` of the box element, in pixels. -/
def displayStyle (box : Box) (lay : Layout) : Style :=
  let rect := lay.canvas
  let imgRect := lay.image
  let x1 := Num.min box.startX box.endX
  let y1 := Num.min box.startY box.endY
  let x2 := Num.max box.startX box.endX
  let y2 := Num.max box.startY box.endY
  let displayX1 := Num.mul (Num.div x1 NORMALIZED_WIDTH) (.fin imgRect.width)
  let displayY1 := Num.mul (Num.div y1 NORMALIZED_HEIGHT) (.fin imgRect.height)
  let displayX2 := Num.mul (Num.div x2 NORMALIZED_WIDTH) (.fin imgRect.width)
  let displayY2 := Num.mul (Num.div y2 NORMALIZED_HEIGHT) (.fin imgRect.height)
  let canvasX := Num.add (Num.sub (.fin imgRect.left) (.fin rect.left)) displayX1
  let canvasY := Num.add (Num.sub (.fin imgRect.top) (.fin rect.top)) displayY1
  let width := Num.sub displayX2 displayX1
  let height := Num.sub displayY2 displayY1
  { left := canvasX, top := canvasY, width := width, height := height }

/-- The method `updateBoxPosition`: writes the position of a box on its element. The label
placement that follows in the source reads `offsetWidth` and writes only label and
delete-button styles. -/
def updateBoxPosition (s : State) (box : Ref) (lay : Layout) : State :=
  s.update box fun b => { b with style := some (displayStyle b lay) }

/-- The loop of `repositionAllBoxes`. -/
def repositionEach (lay : Layout) : List Ref → State → State
  | [], s => s
  | box :: rest, s => repositionEach lay rest (updateBoxPosition s box lay)

/-- The method `repositionAllBoxes`. -/
def repositionAllBoxes (s : State) (lay : Layout) : State :=
  repositionEach lay s.selectionBoxes s

/-! ## Submission readiness -/

/-- The test
`selectionBoxes.every(box => box.confidence !== null && box.confidence !== undefined)`. -/
def allRated (s : State) : Bool :=
  s.selectionBoxes.all fun box => (s.heap box).confidence.isSome

/-- The method `checkSubmitReady`. -/
def checkSubmitReady (s : State) : State :=
  if s.selectionBoxes.length = 0 then
    { s with submitDisabled := false }
  else
    let allRated := allRated s
    { s with submitDisabled := !allRated }

/-! ## Drawing -/

/-- The method `startDrawing`. -/
def startDrawing (s : State) (e : MouseEvent) (lay : Layout) (now : Int) : State :=
  let imgRect := lay.image
  if imgRect.width = 0 ∨ imgRect.height = 0 then
    s
  else
    let pixelX := e.clientX - imgRect.left
    let pixelY := e.clientY - imgRect.top
    let normalizedX := Num.mul (Num.div (.fin pixelX) (.fin imgRect.width)) NORMALIZED_WIDTH
    let normalizedY := Num.mul (Num.div (.fin pixelY) (.fin imgRect.height)) NORMALIZED_HEIGHT
    let s := { s with isDrawing := true }
    let box : Box :=
      { id := now, startX := normalizedX, startY := normalizedY, endX := normalizedX,
        endY := normalizedY, confidence := none, label := none, style := none }
    let r := s.nextRef
    let s := { s with heap := Function.update s.heap r box, nextRef := r + 1,
                      currentBox := some r }
    updateBoxPosition s r lay

/-- The method `updateDrawing`. -/
def updateDrawing (s : State) (e : MouseEvent) (lay : Layout) : State :=
  if !s.isDrawing then s
  else
    match s.currentBox with
    | none => s
    | some cur =>
      let imgRect := lay.image
      let pixelX := e.clientX - imgRect.left
      let pixelY := e.clientY - imgRect.top
      let s := s.update cur fun b =>
        { b with endX := Num.mul (Num.div (.fin pixelX) (.fin imgRect.width)) NORMALIZED_WIDTH }
      let s := s.update cur fun b =>
        { b with endY := Num.mul (Num.div (.fin pixelY) (.fin imgRect.height)) NORMALIZED_HEIGHT }
      updateBoxPosition s cur lay

/-- The method `addBoxHandles`, called right after the box was pushed. -/
def addBoxHandles (s : State) (box : Ref) : State :=
  let boxIndex := s.selectionBoxes.length
  s.update box fun b => { b with confidence := none, label := some boxIndex }

/-- The method `endDrawing`. -/
def endDrawing (s : State) (lay : Layout) : State :=
  if !s.isDrawing then s
  else
    match s.currentBox with
    | none => s
    | some cur =>
      let s := { s with isDrawing := false }
      let old := s.heap cur
      let width := Num.abs (Num.sub old.endX old.startX)
      let height := Num.abs (Num.sub old.endY old.startY)
      let copy : Box :=
        { old with
          startX := Num.min old.startX old.endX
          endX := Num.max old.startX old.endX
          startY := Num.min old.startY old.endY
          endY := Num.max old.startY old.endY }
      let r := s.nextRef
      let s := { s with heap := Function.update s.heap r copy, nextRef := r + 1,
                        currentBox := some r }
      let minSize := Num.fin 10
      let s :=
        if Num.lt width minSize || Num.lt height minSize then
          s
        else
          let s := { s with selectionBoxes := s.selectionBoxes ++ [r] }
          addBoxHandles s r
      let s := updateBoxPosition s r lay
      let s := { s with currentBox := none }
      checkSubmitReady s

/-! ## Resizing -/

/-- The method `startResize`; `handle` and `boxId` are read from the dataset of the handle
under the pointer. -/
def startResize (s : State) (handle : Handle) (boxId : Int) : State :=
  { s with
    isResizing := true
    resizeHandle := some handle
    currentBox := s.selectionBoxes.find? fun box => (s.heap box).id == boxId }

/-- The method `updateResize`. -/
def updateResize (s : State) (e : MouseEvent) (lay : Layout) : State :=
  if !s.isResizing then s
  else
    match s.currentBox with
    | none => s
    | some cur =>
      let imgRect := lay.image
      let pixelX := e.clientX - imgRect.left
      let pixelY := e.clientY - imgRect.top
      let normalizedX := Num.mul (Num.div (.fin pixelX) (.fin imgRect.width)) NORMALIZED_WIDTH
      let normalizedY := Num.mul (Num.div (.fin pixelY) (.fin imgRect.height)) NORMALIZED_HEIGHT
      let s :=
        match s.resizeHandle with
        | some .tl => s.update cur fun b => { b with startX := normalizedX, startY := normalizedY }
        | some .tr => s.update cur fun b => { b with endX := normalizedX, startY := normalizedY }
        | some .bl => s.update cur fun b => { b with startX := normalizedX, endY := normalizedY }
        | some .br => s.update cur fun b => { b with endX := normalizedX, endY := normalizedY }
        | none => s
      updateBoxPosition s cur lay

/-- The method `endResize`. -/
def endResize (s : State) : State :=
  { s with isResizing := false, resizeHandle := none, currentBox := none }

/-! ## Deleting, labelling, rating -/

/-- The loop of `updateBoxLabels`, from index `i` on. -/
def relabelFrom : Nat → List Ref → State → State
  | _, [], s => s
  | i, box :: rest, s =>
    relabelFrom (i + 1) rest
      (s.update box fun b => if b.label.isSome then { b with label := some (i + 1) } else b)

/-- The method `updateBoxLabels`. -/
def updateBoxLabels (s : State) : State :=
  relabelFrom 0 s.selectionBoxes s

/-- The method `deleteBox`. `List.indexOf` answers the length of the list where JavaScript
answers `-1`. -/
def deleteBox (s : State) (box : Ref) : State :=
  let index := s.selectionBoxes.indexOf box
  let s :=
    if index < s.selectionBoxes.length then
      { s with selectionBoxes := s.selectionBoxes.eraseIdx index }
    else s
  let s := updateBoxLabels s
  checkSubmitReady s

/-- The loop of `clearAllBoxes`: `shift()` until the array is empty. -/
def shiftAll : List Ref → List Ref
  | [] => []
  | _ :: rest => shiftAll rest

/-- The method `clearAllBoxes`. -/
def clearAllBoxes (s : State) : State :=
  { s with selectionBoxes := shiftAll s.selectionBoxes }

/-- The method `setBoxRating`. -/
def setBoxRating (s : State) (boxId : Int) (rating : Nat) : State :=
  let s :=
    match s.selectionBoxes.find? fun b => (s.heap b).id == boxId with
    | some box => s.update box fun b => { b with confidence := some rating }
    | none => s
  checkSubmitReady s

/-! ## Playback -/

/-- The method `getCurrentVideo`; `none` is `undefined`. -/
def getCurrentVideo (s : State) : Option Video := s.videos[s.currentVideoIndex]?

/-- The callback given to `setInterval` in `play`. -/
def tick (s : State) : State :=
  let s := { s with currentFrame := s.currentFrame + 1 }
  if s.currentFrame ≥ s.totalFrames then { s with currentFrame := 0 } else s

/-- The delay `1000 / (this.frameRate * this.playbackSpeed)` given to `setInterval`. -/
def intervalDelay (s : State) : Num :=
  Num.div (.fin 1000) (Num.mul (.fin s.frameRate) (.fin s.playbackSpeed))

/-- The method `play`. -/
def play (s : State) (now : Int) : State :=
  let s := if !s.hasWatchedVideo then { s with hasWatchedVideo := true } else s
  let s := if !truthy s.videoPlayStartTime then { s with videoPlayStartTime := some now } else s
  let s := { s with isPlaying := true }
  let video := getCurrentVideo s
  { s with
    playInterval := some s.nextTimer
    timers := s.timers ++ [{ handle := s.nextTimer, delay := intervalDelay s, video := video }]
    nextTimer := s.nextTimer + 1 }

/-- The first statement of `pause`: `if (this.videoPlayStartTime) { ... }` adds the elapsed
time to `totalWatchTime` and clears the timestamp. -/
def flushWatchTime (s : State) (now : Int) : State :=
  match s.videoPlayStartTime with
  | some start =>
    if start ≠ 0 then
      { s with totalWatchTime := s.totalWatchTime + (now - start), videoPlayStartTime := none }
    else s
  | none => s

/-- The last statement of `pause`: `if (this.playInterval) { clearInterval(this.playInterval) }`. -/
def clearPlayInterval (s : State) : State :=
  match s.playInterval with
  | some h => if h ≠ 0 then { s with timers := s.timers.filter fun t => t.handle ≠ h } else s
  | none => s

/-- The method `pause`. -/
def pause (s : State) (now : Int) : State :=
  let s := flushWatchTime s now
  let s := { s with isPlaying := false }
  clearPlayInterval s

/-- The method `setPlaybackSpeed`. -/
def setPlaybackSpeed (s : State) (speed : ℚ) (now : Int) : State :=
  let s := { s with playbackSpeed := speed }
  if s.isPlaying then play (pause s now) now else s

/-- The method `nextFrame`. A `TypeError` from `getCurrentVideo().index` comes after the
last write to a field. -/
def nextFrame (s : State) (now : Int) : State :=
  let s := if s.isPlaying then pause s now else s
  { s with currentFrame := Min.min (s.currentFrame + 1) (s.totalFrames - 1) }

/-- The method `previousFrame`. -/
def previousFrame (s : State) (now : Int) : State :=
  let s := if s.isPlaying then pause s now else s
  { s with currentFrame := Max.max (s.currentFrame - 1) 0 }

/-- The method `skipFrames`. -/
def skipFrames (s : State) (count : Int) (now : Int) : State :=
  let s := if s.isPlaying then pause s now else s
  { s with currentFrame := Max.max 0 (Min.min (s.currentFrame + count) (s.totalFrames - 1)) }

/-- The `input` handler of the scrubber, bound in `bindEvents`; `value` is
`parseInt(e.target.value)`. -/
def scrubberInput (s : State) (value : Int) : State :=
  let s := { s with hasWatchedVideo := true }
  { s with currentFrame := value }

/-! ## Clips and submission -/

/-- The method `resetVideoState`. -/
def resetVideoState (s : State) (now : Int) : State :=
  let s := { s with hasWatchedVideo := false, totalWatchTime := 0, videoPlayStartTime := none,
                    currentFrame := 0 }
  let s := if s.isPlaying then pause s now else s
  checkSubmitReady s

/-- The method `loadVideo`. Reading `video.index` of an `undefined` video throws. -/
def loadVideo (s : State) (index : Nat) (now : Int) : Result :=
  if index ≥ s.totalVideos then
    .ok s
  else
    let s := { s with currentVideoIndex := index, globalVideoIndex := s.globalVideoIndex + 1 }
    match s.videos[index]? with
    | none => .threw s
    | some _ =>
      let s := clearAllBoxes s
      let s := resetVideoState s now
      .ok s

/-- The method `saveAnnotation`: posts the record; a rejected `fetch` is caught and logged,
so the promise it returns is fulfilled whatever the outcome. -/
def saveAnnotation (s : State) (record : Annotation) (outcome : FetchOutcome) : State :=
  let s := { s with sent := s.sent ++ [record] }
  match outcome with
  | .fulfilled _ => s
  | .rejected => { s with console := s.console ++ ["Error saving annotation:"] }

/-- The `groups` of the record: `selectionBoxes.map((box, i) => ...)`. -/
def groupsOf (s : State) : List Group :=
  s.selectionBoxes.mapIdx fun i box =>
    let x1 := Num.round (Num.min (s.heap box).startX (s.heap box).endX)
    let y1 := Num.round (Num.min (s.heap box).startY (s.heap box).endY)
    let x2 := Num.round (Num.max (s.heap box).startX (s.heap box).endX)
    let y2 := Num.round (Num.max (s.heap box).startY (s.heap box).endY)
    { groupId := i + 1, bbox := [x1, y1, x2, y2], confidence := (s.heap box).confidence }

/-- The object literal `annotation` built in `submitAnnotation`, `video` being the result of
`getCurrentVideo()`. -/
def recordOf (s : State) (video : Video) (now : Int) : Annotation :=
  { timestamp := now
    videoIndex := s.currentVideoIndex + 1
    globalIndex := s.globalVideoIndex
    videoFolder := video.folder
    videoWatched := s.hasWatchedVideo
    totalWatchTimeMs := s.totalWatchTime +
      (match s.videoPlayStartTime with
       | some start => if start ≠ 0 then now - start else 0
       | none => 0)
    numberOfGroups := s.selectionBoxes.length
    groups := groupsOf s
    videoInfo :=
      { totalFrames := s.totalFrames, annotationFrame := 1,
        coordinateSystem := "normalized", normalizedWidth := NORMALIZED_WIDTH,
        normalizedHeight := NORMALIZED_HEIGHT } }

/-- The method `submitAnnotation`. -/
def submitAnnotation (s : State) (now : Int) (outcome : FetchOutcome) : Result :=
  if s.selectionBoxes.length > 0 ∧ allRated s = false then
    .ok { s with alerts := s.alerts ++
      ["Please rate all groups before submitting, or delete boxes to skip this video"] }
  else
    let s := if s.isPlaying then pause s now else s
    match getCurrentVideo s with
    | none => .threw s
    | some video =>
      let record := recordOf s video now
      let s := saveAnnotation s record outcome
      if (s.currentVideoIndex : Int) < (s.totalVideos : Int) - 1 then
        match loadVideo s (s.currentVideoIndex + 1) now with
        | .ok s => .ok s
        | .threw s => .ok { s with alerts := s.alerts ++
            ["Error saving annotation. Please check the console."] }
      else
        .ok { s with location := some "/thank_you" }

/-! ## Event handlers -/

/-- What a `mousedown` on the canvas hit: a resize handle (with its dataset), a delete or
rating control, or anything else. -/
inductive Target where
  | handle (h : Handle) (boxId : Int)
  | control
  | other
  deriving DecidableEq

/-- The method `handleMouseDown`. -/
def handleMouseDown (s : State) (target : Target) (e : MouseEvent) (lay : Layout)
    (now : Int) : State :=
  match target with
  | .handle h boxId => startResize s h boxId
  | .control => s
  | .other => startDrawing s e lay now

/-- The method `handleMouseMove`. -/
def handleMouseMove (s : State) (e : MouseEvent) (lay : Layout) : State :=
  if s.isDrawing then updateDrawing s e lay
  else if s.isResizing then updateResize s e lay
  else s

/-- The method `handleMouseUp`. -/
def handleMouseUp (s : State) (lay : Layout) : State :=
  if s.isDrawing then endDrawing s lay
  else if s.isResizing then endResize s
  else s

/-- The `mouseleave` handler of the canvas, bound in `bindEvents`. -/
def handleMouseLeave (s : State) (lay : Layout) : State :=
  if s.isDrawing || s.isResizing then handleMouseUp s lay else s

/-- The keys the `keydown` handler tells apart. -/
inductive Key where
  | shift
  | arrowRight
  | arrowLeft
  | other
  deriving DecidableEq

/-- The part of a keyboard event the `keydown` handler reads; `inField` says that the target
is an `INPUT`, `TEXTAREA` or `SELECT` element. -/
structure KeyEvent where
  key : Key
  shiftKey : Bool
  inField : Bool
  deriving DecidableEq

/-- The `keydown` handler of the document, bound in `bindEvents`. -/
def handleKeyDown (s : State) (e : KeyEvent) (now : Int) : State :=
  if e.inField then s
  else
    match e.key with
    | .shift => if s.isPlaying then pause s now else play s now
    | .arrowRight =>
      let s := { s with hasWatchedVideo := true }
      if e.shiftKey then skipFrames s 5 now else nextFrame s now
    | .arrowLeft =>
      let s := { s with hasWatchedVideo := true }
      if e.shiftKey then skipFrames s (-5) now else previousFrame s now
    | .other => s

/-- Something that makes the page run code of the tool: a listener bound in `bindEvents`, a
click on a control made by `addBoxHandles`, or the interval of `play` firing. A rating
button carries `i = 1, ..., 5`, here `rating.val + 1`. -/
inductive Event where
  | mouseDown (target : Target) (e : MouseEvent) (lay : Layout)
  | mouseMove (e : MouseEvent) (lay : Layout)
  | mouseUp (lay : Layout)
  | mouseLeave (lay : Layout)
  | clickPlay
  | clickPause
  | clickSubmit (outcome : FetchOutcome)
  | scrubber (value : Int)
  | clickSpeed (speed : ℚ)
  | keyDown (e : KeyEvent)
  | relayout (lay : Layout)
  | clickRating (boxId : Int) (rating : Fin 5)
  | clickDelete (box : Ref)
  | interval (handle : Nat)

/-- The state after the handler of an event has run at clock reading `now`. A delete button
exists only while its box is in the collection; an interval fires only while it is live; a
`TypeError` that escapes `submitAnnotation` leaves the state it had reached. -/
def step (s : State) (ev : Event) (now : Int) : State :=
  match ev with
  | .mouseDown target e lay => handleMouseDown s target e lay now
  | .mouseMove e lay => handleMouseMove s e lay
  | .mouseUp lay => handleMouseUp s lay
  | .mouseLeave lay => handleMouseLeave s lay
  | .clickPlay => play s now
  | .clickPause => pause s now
  | .clickSubmit outcome => ( submitAnnotation s now outcome).state
  | .scrubber value => scrubberInput s value
  | .clickSpeed speed => setPlaybackSpeed s speed now
  | .keyDown e => handleKeyDown s e now
  | .relayout lay => repositionAllBoxes s lay
  | .clickRating boxId rating => setBoxRating s boxId (rating.val + 1)
  | .clickDelete box => if box ∈ s.selectionBoxes then deleteBox s box else s
  | .interval handle => if s.timers.any (fun t => t.handle == handle) then tick s else s

/-- The states the tool can be in after any number of events, starting from `s0`. -/
inductive Reachable (s0 : State) : State → Prop where
  | start : Reachable s0 s0
  | next (s : State) (ev : Event) (now : Int) (before : Reachable s0 s) :
      Reachable s0 (step s ev now)

/-! ## Gestures and sample inputs -/

/-- The finite value of `normalizedX` in `startDrawing`, `updateDrawing` and `updateResize`
when `imgRect.width` is not zero. -/
def logicalX (e : MouseEvent) (lay : Layout) : ℚ :=
  (e.clientX - lay.image.left) / lay.image.width * 1920

/-- The finite value of `normalizedY` when `imgRect.height` is not zero. -/
def logicalY (e : MouseEvent) (lay : Layout) : ℚ :=
  (e.clientY - lay.image.top) / lay.image.height * 1080

/-- A whole drawing gesture as `handleMouseDown`, `handleMouseMove` and `handleMouseUp` route
it: `startDrawing`, one `updateDrawing` per move, `endDrawing`. -/
def drag (s : State) (down : MouseEvent × Layout) (now : Int)
    (moves : List (MouseEvent × Layout)) (up : Layout) : State :=
  endDrawing
    (moves.foldl (fun s m => updateDrawing s m.1 m.2) (startDrawing s down.1 down.2 now)) up

/-- A whole resize gesture: `startResize`, one `updateResize` per move, `endResize`. -/
def resize (s : State) (handle : Handle) (boxId : Int)
    (moves : List (MouseEvent × Layout)) : State :=
  endResize (moves.foldl (fun s m => updateResize s m.1 m.2) (startResize s handle boxId))

/-- A drawing gesture is in progress in `s`: it began in state `s0`, whose next free
reference now holds the drafting box, with start point `(px, py)` and id `ident`; nothing
else of the store or of the collection has changed since. -/
structure Drafting (s0 s : State) (px py : Num) (ident : Int) : Prop where
  isDrawing : s.isDrawing = true
  currentBox : s.currentBox = some s0.nextRef
  nextRef : s.nextRef = s0.nextRef + 1
  selectionBoxes : s.selectionBoxes = s0.selectionBoxes
  startX : (s.heap s0.nextRef).startX = px
  startY : (s.heap s0.nextRef).startY = py
  id : (s.heap s0.nextRef).id = ident
  frame : ∀ r, r ≠ s0.nextRef → s.heap r = s0.heap r

/-- Every reference held by `selectionBoxes` is allocated. -/
def State.Allocated (s : State) : Prop := ∀ r ∈ s.selectionBoxes, r < s.nextRef

/-- Every confidence that is set is the number of one of the five rating buttons. -/
def State.RatingsValid (s : State) : Prop :=
  ∀ b ∈ s.boxes, ∀ c ∈ b.confidence, 1 ≤ c ∧ c ≤ 5

/-- Every box of the collection carries the label of its position: `Group (i + 1)` at
index `i`. -/
def State.Labelled (s : State) : Prop :=
  s.boxes.map Box.label = (List.range s.boxes.length).map fun i => some (i + 1)

/-- The invariant of the box collection: its references are allocated and pairwise distinct,
every confidence that is set is one of 1..5, and every label shows the position. -/
structure State.WellFormed (s : State) : Prop where
  allocated : s.Allocated
  nodup : s.selectionBoxes.Nodup
  ratings : s.RatingsValid
  labelled : s.Labelled

/-- State `r` is paused, coming from `s` at clock reading `now`: it is not playing, the time
elapsed since the start timestamp of `s` has been added to `totalWatchTime` and the timestamp
cleared, and the interval that `s` held in `playInterval` is no longer live. -/
def PausedFrom (s r : State) (now : Int) : Prop :=
  r.isPlaying = false
    ∧ (∀ start, s.videoPlayStartTime = some start → start ≠ 0 →
        r.totalWatchTime = s.totalWatchTime + (now - start) ∧ r.videoPlayStartTime = none)
    ∧ (∀ h, s.playInterval = some h → h ≠ 0 → ∀ t ∈ r.timers, t.handle ≠ h)

/-- State `r` has the store and the collection of `s`. -/
def SameBoxes (s r : State) : Prop :=
  r.heap = s.heap ∧ r.selectionBoxes = s.selectionBoxes ∧ r.nextRef = s.nextRef

/-- State `r` is on the same clip of the same session as `s`. -/
def SameSession (s r : State) : Prop :=
  r.currentVideoIndex = s.currentVideoIndex ∧ r.totalVideos = s.totalVideos

/-- A layout in which the image is shown at its logical size, at the origin of the canvas. -/
def fullLayout : Layout :=
  { canvas := { left := 0, top := 0, width := 1920, height := 1080 },
    image := { left := 0, top := 0, width := 1920, height := 1080 } }

/-- A layout in which the image is shown at half its logical size, at (40,30) on the screen,
in a canvas at (10,10). -/
def halfLayout : Layout :=
  { canvas := { left := 10, top := 10, width := 1000, height := 600 },
    image := { left := 40, top := 30, width := 960, height := 540 } }

/-- A layout in which the image has not been laid out yet. -/
def zeroLayout : Layout :=
  { canvas := { left := 0, top := 0, width := 1920, height := 1080 },
    image := { left := 0, top := 0, width := 0, height := 0 } }

/-- A session of two clips, the first one loaded. -/
def twoClips : State :=
  { State.initial with
    totalVideos := 2
    videos := [{ index := 0, folder := "clip_a" }, { index := 1, folder := "clip_b" }]
    globalVideoIndex := 1 }

/-- A drag under way: pressed at logical (100,100) at time 1000, moved to (500,400). -/
def midDrag : State :=
  updateDrawing (startDrawing twoClips { clientX := 100, clientY := 100 } fullLayout 1000)
    { clientX := 500, clientY := 400 } fullLayout

/-- One box drawn from logical (100,100) to (500,400) at time 1000, not rated yet. -/
def oneBox : State :=
  drag twoClips ({ clientX := 100, clientY := 100 }, fullLayout) 1000
    [({ clientX := 500, clientY := 400 }, fullLayout)] fullLayout

/-- The box of `oneBox` rated 4. -/
def oneBoxRated : State := setBoxRating oneBox 1000 4

/-- After `oneBoxRated`, a second box drawn from logical (600,500) to (900,800) at time 5000,
not rated. -/
def twoBoxes : State :=
  drag oneBoxRated ({ clientX := 600, clientY := 500 }, fullLayout) 5000
    [({ clientX := 900, clientY := 800 }, fullLayout)] fullLayout

/-- After `twoBoxes`, a third box drawn from logical (1000,100) to (1200,300) at time 7000,
not rated. -/
def threeBoxes : State :=
  drag twoBoxes ({ clientX := 1000, clientY := 100 }, fullLayout) 7000
    [({ clientX := 1200, clientY := 300 }, fullLayout)] fullLayout

/-- The state of `oneBoxRated`, on the last clip of the session instead of the first. -/
def lastClipRated : State := { oneBoxRated with currentVideoIndex := 1 }

/-- The session `twoClips` after a click on the speed button `2x` at time 2000. -/
def fastClips : State := setPlaybackSpeed twoClips 2 2000

/-- The state `twoBoxes`, playing since time 6000. -/
def twoBoxesPlaying : State := play twoBoxes 6000

/-! ## Basic facts -/

@[simp] theorem boxes_eq (s : State) : s.boxes = s.selectionBoxes.map s.heap := rfl

theorem allRated_eq_false_of_unrated (s : State)
    (h : ∃ b ∈ s.boxes, b.confidence = none) : allRated s = false := by
  obtain ⟨b, hb, hc⟩ := h
  simp only [boxes_eq, List.mem_map] at hb
  obtain ⟨r, hr, rfl⟩ := hb
  simp only [allRated, List.all_eq_false]
  exact ⟨r, hr, by simp [hc]⟩

theorem allRated_iff (s : State) :
    allRated s = true ↔ ∀ b ∈ s.boxes, b.confidence ≠ none := by
  simp [allRated, List.all_eq_true, Option.isSome_iff_ne_none]

theorem tick_totalFrames (s : State) : (tick s).totalFrames = s.totalFrames := by
  unfold tick
  dsimp only
  split <;> rfl

theorem tick_iterate_totalFrames (n : Nat) (s : State) :
    (tick^[n] s).totalFrames = s.totalFrames := by
  induction n with
  | zero => rfl
  | succ k ih => rw [Function.iterate_succ_apply', tick_totalFrames, ih]

theorem tick_currentFrame (s : State) (h0 : 0 ≤ s.currentFrame)
    (h1 : s.currentFrame < s.totalFrames) :
    (tick s).currentFrame = (s.currentFrame + 1) % s.totalFrames := by
  unfold tick
  dsimp only
  split
  · next h =>
    have : s.currentFrame + 1 = s.totalFrames := by omega
    simp [this]
  · next h =>
    dsimp only
    rw [Int.emod_eq_of_lt (by omega) (by omega)]

section fields
variable (s : State)

@[simp] theorem checkSubmitReady_heap : (checkSubmitReady s).heap = s.heap := by
  unfold checkSubmitReady; split <;> rfl
@[simp] theorem checkSubmitReady_selectionBoxes :
    (checkSubmitReady s).selectionBoxes = s.selectionBoxes := by
  unfold checkSubmitReady; split <;> rfl
@[simp] theorem checkSubmitReady_nextRef : (checkSubmitReady s).nextRef = s.nextRef := by
  unfold checkSubmitReady; split <;> rfl
@[simp] theorem update_selectionBoxes (r : Ref) (f : Box → Box) :
    (s.update r f).selectionBoxes = s.selectionBoxes := rfl
@[simp] theorem update_nextRef (r : Ref) (f : Box → Box) :
    (s.update r f).nextRef = s.nextRef := rfl
@[simp] theorem update_isDrawing (r : Ref) (f : Box → Box) :
    (s.update r f).isDrawing = s.isDrawing := rfl
@[simp] theorem update_currentBox (r : Ref) (f : Box → Box) :
    (s.update r f).currentBox = s.currentBox := rfl
@[simp] theorem update_heap_same (r : Ref) (f : Box → Box) :
    (s.update r f).heap r = f (s.heap r) := by simp [State.update]
theorem update_heap_other (r r' : Ref) (f : Box → Box) (h : r' ≠ r) :
    (s.update r f).heap r' = s.heap r' := by simp [State.update, Function.update_noteq h]
@[simp] theorem updateBoxPosition_selectionBoxes (r : Ref) (lay : Layout) :
    (updateBoxPosition s r lay).selectionBoxes = s.selectionBoxes := rfl
@[simp] theorem updateBoxPosition_nextRef (r : Ref) (lay : Layout) :
    (updateBoxPosition s r lay).nextRef = s.nextRef := rfl
@[simp] theorem updateBoxPosition_isDrawing (r : Ref) (lay : Layout) :
    (updateBoxPosition s r lay).isDrawing = s.isDrawing := rfl
@[simp] theorem updateBoxPosition_currentBox (r : Ref) (lay : Layout) :
    (updateBoxPosition s r lay).currentBox = s.currentBox := rfl
theorem updateBoxPosition_heap_other (r r' : Ref) (lay : Layout) (h : r' ≠ r) :
    (updateBoxPosition s r lay).heap r' = s.heap r' := by
  unfold updateBoxPosition; exact update_heap_other _ _ _ _ h
@[simp] theorem updateBoxPosition_heap_same (r : Ref) (lay : Layout) :
    (updateBoxPosition s r lay).heap r
      = { s.heap r with style := some (displayStyle (s.heap r) lay) } := by
  unfold updateBoxPosition; exact update_heap_same _ _ _
end fields

theorem endDrawing_discard (s : State) (lay : Layout) (cur : Ref)
    (hd : s.isDrawing = true) (hc : s.currentBox = some cur)
    (hsmall : (Num.lt (Num.abs (Num.sub (s.heap cur).endX (s.heap cur).startX)) (.fin 10)
      || Num.lt (Num.abs (Num.sub (s.heap cur).endY (s.heap cur).startY)) (.fin 10)) = true) :
    (endDrawing s lay).selectionBoxes = s.selectionBoxes
      ∧ ∀ r, r ≠ s.nextRef → (endDrawing s lay).heap r = s.heap r := by
  unfold endDrawing
  simp only [hd, hc, Bool.not_true, Bool.false_eq_true, if_false, hsmall, if_true]
  refine ⟨by simp, ?_⟩
  intro r hr
  simp [updateBoxPosition_heap_other _ _ _ _ hr, Function.update_noteq hr]

theorem endDrawing_nextRef_le (s : State) (lay : Layout) :
    s.nextRef ≤ (endDrawing s lay).nextRef := by
  unfold endDrawing
  split
  · exact Nat.le_refl _
  · split
    · exact Nat.le_refl _
    · dsimp only
      split <;> simp [addBoxHandles]

theorem endDrawing_commit (s : State) (lay : Layout) (cur : Ref)
    (hd : s.isDrawing = true) (hc : s.currentBox = some cur)
    (hbig : (Num.lt (Num.abs (Num.sub (s.heap cur).endX (s.heap cur).startX)) (.fin 10)
      || Num.lt (Num.abs (Num.sub (s.heap cur).endY (s.heap cur).startY)) (.fin 10)) = false) :
    (endDrawing s lay).selectionBoxes = s.selectionBoxes ++ [s.nextRef]
      ∧ (∀ r, r ≠ s.nextRef → (endDrawing s lay).heap r = s.heap r)
      ∧ ∃ st, (endDrawing s lay).heap s.nextRef =
          { id := (s.heap cur).id
            startX := Num.min (s.heap cur).startX (s.heap cur).endX
            startY := Num.min (s.heap cur).startY (s.heap cur).endY
            endX := Num.max (s.heap cur).startX (s.heap cur).endX
            endY := Num.max (s.heap cur).startY (s.heap cur).endY
            confidence := none
            label := some (s.selectionBoxes.length + 1)
            style := some st } := by
  unfold endDrawing
  simp only [hd, hc, Bool.not_true, Bool.false_eq_true, if_false, hbig]
  refine ⟨by simp [addBoxHandles], ?_, ?_⟩
  · intro r hr
    simp [updateBoxPosition_heap_other _ _ _ _ hr, addBoxHandles, update_heap_other _ _ _ _ hr,
      Function.update_noteq hr]
  · simp [addBoxHandles]

namespace Num
@[simp] theorem sub_fin (a b : ℚ) : sub (fin a) (fin b) = fin (a - b) := by
  simp [sub, neg, add, sub_eq_add_neg]
@[simp] theorem abs_fin (a : ℚ) : abs (fin a) = fin |a| := rfl
@[simp] theorem lt_fin (a b : ℚ) : lt (fin a) (fin b) = decide (a < b) := rfl
@[simp] theorem le_fin (a b : ℚ) : le (fin a) (fin b) = decide (a ≤ b) := rfl
@[simp] theorem mul_fin (a b : ℚ) : mul (fin a) (fin b) = fin (a * b) := rfl
theorem div_fin (a b : ℚ) (h : b ≠ 0) : div (fin a) (fin b) = fin (a / b) := by
  simp [div, h]
@[simp] theorem min_fin (a b : ℚ) : min (fin a) (fin b) = fin (Min.min a b) := by
  simp only [min, lt_fin]
  by_cases h : b < a
  · simp [h, min_eq_right (le_of_lt h)]
  · simp [h, min_eq_left (not_lt.mp h)]
@[simp] theorem max_fin (a b : ℚ) : max (fin a) (fin b) = fin (Max.max a b) := by
  simp only [max, lt_fin]
  by_cases h : a < b
  · simp [h, max_eq_right (le_of_lt h)]
  · simp [h, max_eq_left (not_lt.mp h)]
end Num

theorem normalizedX_fin (e : MouseEvent) (lay : Layout) (h : lay.image.width ≠ 0) :
    Num.mul (Num.div (.fin (e.clientX - lay.image.left)) (.fin lay.image.width)) NORMALIZED_WIDTH
      = .fin (logicalX e lay) := by
  simp [Num.div_fin _ _ h, NORMALIZED_WIDTH, logicalX]

theorem normalizedY_fin (e : MouseEvent) (lay : Layout) (h : lay.image.height ≠ 0) :
    Num.mul (Num.div (.fin (e.clientY - lay.image.top)) (.fin lay.image.height)) NORMALIZED_HEIGHT
      = .fin (logicalY e lay) := by
  simp [Num.div_fin _ _ h, NORMALIZED_HEIGHT, logicalY]

theorem startDrawing_drafting (s : State) (e : MouseEvent) (lay : Layout) (now : Int)
    (hw : lay.image.width ≠ 0) (hh : lay.image.height ≠ 0) :
    Drafting s (startDrawing s e lay now) (.fin (logicalX e lay)) (.fin (logicalY e lay)) now
      ∧ ((startDrawing s e lay now).heap s.nextRef).endX = .fin (logicalX e lay)
      ∧ ((startDrawing s e lay now).heap s.nextRef).endY = .fin (logicalY e lay) := by
  unfold startDrawing
  simp only [hw, hh, or_self, if_false, normalizedX_fin e lay hw, normalizedY_fin e lay hh]
  refine ⟨⟨rfl, rfl, rfl, rfl, by simp, by simp, by simp, ?_⟩, by simp, by simp⟩
  intro r hr
  simp [updateBoxPosition_heap_other _ _ _ _ hr, Function.update_noteq hr]

theorem updateDrawing_drafting (s0 s : State) (px py : Num) (ident : Int) (e : MouseEvent)
    (lay : Layout) (h : Drafting s0 s px py ident) :
    Drafting s0 (updateDrawing s e lay) px py ident
      ∧ ((updateDrawing s e lay).heap s0.nextRef).endX
          = Num.mul (Num.div (.fin (e.clientX - lay.image.left)) (.fin lay.image.width))
              NORMALIZED_WIDTH
      ∧ ((updateDrawing s e lay).heap s0.nextRef).endY
          = Num.mul (Num.div (.fin (e.clientY - lay.image.top)) (.fin lay.image.height))
              NORMALIZED_HEIGHT := by
  unfold updateDrawing
  simp only [h.isDrawing, h.currentBox, Bool.not_true, Bool.false_eq_true, if_false]
  refine ⟨⟨by simp [h.isDrawing], by simp [h.currentBox], by simp [h.nextRef],
    by simp [h.selectionBoxes], by simp [h.startX], by simp [h.startY], by simp [h.id], ?_⟩,
    by simp, by simp⟩
  intro r hr
  rw [updateBoxPosition_heap_other _ _ _ _ hr, update_heap_other _ _ _ _ hr,
    update_heap_other _ _ _ _ hr, h.frame r hr]

theorem foldl_updateDrawing_drafting (s0 : State) (px py : Num) (ident : Int)
    (moves : List (MouseEvent × Layout)) :
    ∀ s, Drafting s0 s px py ident →
      Drafting s0 (moves.foldl (fun s m => updateDrawing s m.1 m.2) s) px py ident := by
  induction moves with
  | nil => intro s h; exact h
  | cons m rest ih =>
    intro s h
    exact ih _ (updateDrawing_drafting s0 s px py ident m.1 m.2 h).1

theorem boxes_eq_of_frame (s s' : State) (n : Ref) (hall : ∀ r ∈ s.selectionBoxes, r < n)
    (hframe : ∀ r, r ≠ n → s'.heap r = s.heap r) :
    s.selectionBoxes.map s'.heap = s.selectionBoxes.map s.heap := by
  apply List.map_congr_left
  intro r hr
  exact hframe r (Nat.ne_of_lt (hall r hr))

/-- What a whole drag does, for a press and a last move on a laid-out image. -/
theorem drag_result (s : State) (e0 e1 : MouseEvent) (lay0 lay1 up : Layout) (now : Int)
    (moves : List (MouseEvent × Layout))
    (h0 : lay0.image.width ≠ 0 ∧ lay0.image.height ≠ 0)
    (h1 : lay1.image.width ≠ 0 ∧ lay1.image.height ≠ 0) :
    ((|logicalX e1 lay1 - logicalX e0 lay0| < 10 ∨ |logicalY e1 lay1 - logicalY e0 lay0| < 10) →
        (drag s (e0, lay0) now (moves ++ [(e1, lay1)]) up).selectionBoxes = s.selectionBoxes)
      ∧ (¬ (|logicalX e1 lay1 - logicalX e0 lay0| < 10
            ∨ |logicalY e1 lay1 - logicalY e0 lay0| < 10) →
          (drag s (e0, lay0) now (moves ++ [(e1, lay1)]) up).selectionBoxes
              = s.selectionBoxes ++ [s.nextRef + 1]
            ∧ ∃ st, (drag s (e0, lay0) now (moves ++ [(e1, lay1)]) up).heap (s.nextRef + 1) =
                { id := now
                  startX := .fin (min (logicalX e0 lay0) (logicalX e1 lay1))
                  startY := .fin (min (logicalY e0 lay0) (logicalY e1 lay1))
                  endX := .fin (max (logicalX e0 lay0) (logicalX e1 lay1))
                  endY := .fin (max (logicalY e0 lay0) (logicalY e1 lay1))
                  confidence := none
                  label := some (s.selectionBoxes.length + 1)
                  style := some st }) := by
  have hs1 := (startDrawing_drafting s e0 lay0 now h0.1 h0.2).1
  have hs2 := foldl_updateDrawing_drafting s _ _ now moves _ hs1
  obtain ⟨hs3, hex, hey⟩ := updateDrawing_drafting s _ _ _ now e1 lay1 hs2
  rw [normalizedX_fin e1 lay1 h1.1] at hex
  rw [normalizedY_fin e1 lay1 h1.2] at hey
  have hdrag : drag s (e0, lay0) now (moves ++ [(e1, lay1)]) up
      = endDrawing (updateDrawing
          (moves.foldl (fun s m => updateDrawing s m.1 m.2) (startDrawing s e0 lay0 now))
          e1 lay1) up := by
    simp [drag, List.foldl_append]
  rw [hdrag]
  generalize updateDrawing
    (moves.foldl (fun s m => updateDrawing s m.1 m.2) (startDrawing s e0 lay0 now)) e1 lay1
    = s2 at hs3 hex hey
  have hsize : (Num.lt (Num.abs (Num.sub (s2.heap s.nextRef).endX (s2.heap s.nextRef).startX))
        (.fin 10)
      || Num.lt (Num.abs (Num.sub (s2.heap s.nextRef).endY (s2.heap s.nextRef).startY))
        (.fin 10))
      = decide (|logicalX e1 lay1 - logicalX e0 lay0| < 10
          ∨ |logicalY e1 lay1 - logicalY e0 lay0| < 10) := by
    rw [hex, hey, hs3.startX, hs3.startY]
    simp
  constructor
  · intro hsmall
    rw [(endDrawing_discard s2 up s.nextRef hs3.isDrawing hs3.currentBox
      (by rw [hsize]; exact decide_eq_true hsmall)).1, hs3.selectionBoxes]
  · intro hbig
    obtain ⟨hsel, _, st, hst⟩ := endDrawing_commit s2 up s.nextRef hs3.isDrawing hs3.currentBox
      (by rw [hsize]; exact decide_eq_false hbig)
    rw [hs3.nextRef] at hsel hst
    rw [hs3.selectionBoxes] at hsel
    refine ⟨hsel, st, ?_⟩
    rw [hst, hex, hey, hs3.startX, hs3.startY, hs3.id, hs3.selectionBoxes]
    simp

section pauseFields
variable (s : State) (now : Int)
@[simp] theorem flushWatchTime_heap : (flushWatchTime s now).heap = s.heap := by
  unfold flushWatchTime; split <;> (try split) <;> rfl
@[simp] theorem flushWatchTime_selectionBoxes :
    (flushWatchTime s now).selectionBoxes = s.selectionBoxes := by
  unfold flushWatchTime; split <;> (try split) <;> rfl
@[simp] theorem flushWatchTime_sent : (flushWatchTime s now).sent = s.sent := by
  unfold flushWatchTime; split <;> (try split) <;> rfl
@[simp] theorem flushWatchTime_videos : (flushWatchTime s now).videos = s.videos := by
  unfold flushWatchTime; split <;> (try split) <;> rfl
@[simp] theorem flushWatchTime_currentVideoIndex :
    (flushWatchTime s now).currentVideoIndex = s.currentVideoIndex := by
  unfold flushWatchTime; split <;> (try split) <;> rfl
@[simp] theorem flushWatchTime_totalVideos :
    (flushWatchTime s now).totalVideos = s.totalVideos := by
  unfold flushWatchTime; split <;> (try split) <;> rfl
@[simp] theorem flushWatchTime_nextRef : (flushWatchTime s now).nextRef = s.nextRef := by
  unfold flushWatchTime; split <;> (try split) <;> rfl
@[simp] theorem flushWatchTime_alerts : (flushWatchTime s now).alerts = s.alerts := by
  unfold flushWatchTime; split <;> (try split) <;> rfl
@[simp] theorem flushWatchTime_location : (flushWatchTime s now).location = s.location := by
  unfold flushWatchTime; split <;> (try split) <;> rfl
@[simp] theorem flushWatchTime_globalVideoIndex :
    (flushWatchTime s now).globalVideoIndex = s.globalVideoIndex := by
  unfold flushWatchTime; split <;> (try split) <;> rfl
@[simp] theorem flushWatchTime_totalFrames :
    (flushWatchTime s now).totalFrames = s.totalFrames := by
  unfold flushWatchTime; split <;> (try split) <;> rfl
@[simp] theorem flushWatchTime_currentFrame :
    (flushWatchTime s now).currentFrame = s.currentFrame := by
  unfold flushWatchTime; split <;> (try split) <;> rfl
@[simp] theorem flushWatchTime_hasWatchedVideo :
    (flushWatchTime s now).hasWatchedVideo = s.hasWatchedVideo := by
  unfold flushWatchTime; split <;> (try split) <;> rfl
@[simp] theorem flushWatchTime_playbackSpeed :
    (flushWatchTime s now).playbackSpeed = s.playbackSpeed := by
  unfold flushWatchTime; split <;> (try split) <;> rfl
@[simp] theorem flushWatchTime_frameRate : (flushWatchTime s now).frameRate = s.frameRate := by
  unfold flushWatchTime; split <;> (try split) <;> rfl
@[simp] theorem clearPlayInterval_heap : (clearPlayInterval s).heap = s.heap := by
  unfold clearPlayInterval; split <;> (try split) <;> rfl
@[simp] theorem clearPlayInterval_selectionBoxes :
    (clearPlayInterval s).selectionBoxes = s.selectionBoxes := by
  unfold clearPlayInterval; split <;> (try split) <;> rfl
@[simp] theorem clearPlayInterval_sent : (clearPlayInterval s).sent = s.sent := by
  unfold clearPlayInterval; split <;> (try split) <;> rfl
@[simp] theorem clearPlayInterval_videos : (clearPlayInterval s).videos = s.videos := by
  unfold clearPlayInterval; split <;> (try split) <;> rfl
@[simp] theorem clearPlayInterval_currentVideoIndex :
    (clearPlayInterval s).currentVideoIndex = s.currentVideoIndex := by
  unfold clearPlayInterval; split <;> (try split) <;> rfl
@[simp] theorem clearPlayInterval_totalVideos :
    (clearPlayInterval s).totalVideos = s.totalVideos := by
  unfold clearPlayInterval; split <;> (try split) <;> rfl
@[simp] theorem clearPlayInterval_nextRef : (clearPlayInterval s).nextRef = s.nextRef := by
  unfold clearPlayInterval; split <;> (try split) <;> rfl
@[simp] theorem clearPlayInterval_alerts : (clearPlayInterval s).alerts = s.alerts := by
  unfold clearPlayInterval; split <;> (try split) <;> rfl
@[simp] theorem clearPlayInterval_location : (clearPlayInterval s).location = s.location := by
  unfold clearPlayInterval; split <;> (try split) <;> rfl
@[simp] theorem clearPlayInterval_globalVideoIndex :
    (clearPlayInterval s).globalVideoIndex = s.globalVideoIndex := by
  unfold clearPlayInterval; split <;> (try split) <;> rfl
@[simp] theorem clearPlayInterval_totalFrames :
    (clearPlayInterval s).totalFrames = s.totalFrames := by
  unfold clearPlayInterval; split <;> (try split) <;> rfl
@[simp] theorem clearPlayInterval_currentFrame :
    (clearPlayInterval s).currentFrame = s.currentFrame := by
  unfold clearPlayInterval; split <;> (try split) <;> rfl
@[simp] theorem clearPlayInterval_hasWatchedVideo :
    (clearPlayInterval s).hasWatchedVideo = s.hasWatchedVideo := by
  unfold clearPlayInterval; split <;> (try split) <;> rfl
@[simp] theorem clearPlayInterval_playbackSpeed :
    (clearPlayInterval s).playbackSpeed = s.playbackSpeed := by
  unfold clearPlayInterval; split <;> (try split) <;> rfl
@[simp] theorem clearPlayInterval_frameRate : (clearPlayInterval s).frameRate = s.frameRate := by
  unfold clearPlayInterval; split <;> (try split) <;> rfl
@[simp] theorem clearPlayInterval_totalWatchTime :
    (clearPlayInterval s).totalWatchTime = s.totalWatchTime := by
  unfold clearPlayInterval; split <;> (try split) <;> rfl
@[simp] theorem clearPlayInterval_videoPlayStartTime :
    (clearPlayInterval s).videoPlayStartTime = s.videoPlayStartTime := by
  unfold clearPlayInterval; split <;> (try split) <;> rfl
@[simp] theorem clearPlayInterval_isPlaying : (clearPlayInterval s).isPlaying = s.isPlaying := by
  unfold clearPlayInterval; split <;> (try split) <;> rfl
@[simp] theorem pause_heap : (pause s now).heap = s.heap := by
  simp [pause]
@[simp] theorem pause_selectionBoxes : (pause s now).selectionBoxes = s.selectionBoxes := by
  simp [pause]
@[simp] theorem pause_sent : (pause s now).sent = s.sent := by
  simp [pause]
@[simp] theorem pause_videos : (pause s now).videos = s.videos := by
  simp [pause]
@[simp] theorem pause_currentVideoIndex :
    (pause s now).currentVideoIndex = s.currentVideoIndex := by
  simp [pause]
@[simp] theorem pause_totalVideos : (pause s now).totalVideos = s.totalVideos := by
  simp [pause]
@[simp] theorem pause_nextRef : (pause s now).nextRef = s.nextRef := by
  simp [pause]
@[simp] theorem pause_alerts : (pause s now).alerts = s.alerts := by
  simp [pause]
@[simp] theorem pause_location : (pause s now).location = s.location := by
  simp [pause]
@[simp] theorem pause_globalVideoIndex : (pause s now).globalVideoIndex = s.globalVideoIndex := by
  simp [pause]
@[simp] theorem pause_totalFrames : (pause s now).totalFrames = s.totalFrames := by
  simp [pause]
@[simp] theorem pause_currentFrame : (pause s now).currentFrame = s.currentFrame := by
  simp [pause]
@[simp] theorem pause_hasWatchedVideo : (pause s now).hasWatchedVideo = s.hasWatchedVideo := by
  simp [pause]
@[simp] theorem pause_playbackSpeed : (pause s now).playbackSpeed = s.playbackSpeed := by
  simp [pause]
@[simp] theorem pause_frameRate : (pause s now).frameRate = s.frameRate := by
  simp [pause]
@[simp] theorem pause_isPlaying : (pause s now).isPlaying = false := by
  simp [pause]
@[simp] theorem checkSubmitReady_sent : (checkSubmitReady s).sent = s.sent := by
  unfold checkSubmitReady; split <;> rfl
@[simp] theorem resetVideoState_sent : (resetVideoState s now).sent = s.sent := by
  unfold resetVideoState; dsimp only; split <;> simp
theorem loadVideo_sent (index : Nat) : (loadVideo s index now).state.sent = s.sent := by
  unfold loadVideo
  split
  · rfl
  · dsimp only
    split
    · rfl
    · simp [Result.state, clearAllBoxes]
end pauseFields

theorem loadVideo_caught_sent (x : State) (index : Nat) (now : Int) (msg : String) :
    (match loadVideo x index now with
      | .ok s => Result.ok s
      | .threw s => Result.ok { s with alerts := s.alerts ++ [msg] }).state.sent = x.sent := by
  have h := loadVideo_sent x now index
  cases hl : loadVideo x index now <;> rw [hl] at h <;> simpa [Result.state] using h

theorem checkSubmitReady_submitDisabled (s : State) :
    (checkSubmitReady s).submitDisabled = false ↔
      (s.selectionBoxes = [] ∨ allRated s = true) := by
  unfold checkSubmitReady
  by_cases hlen : s.selectionBoxes.length = 0
  · have : s.selectionBoxes = [] := List.length_eq_zero.mp hlen
    simp [this]
  · have hne : s.selectionBoxes ≠ [] := fun h => hlen (by simp [h])
    rw [if_neg hlen]
    simp [hne]

/-- The record `submitAnnotation` posts from a ready state with a current video. -/
theorem submitAnnotation_sent (s : State) (now : Int) (outcome : FetchOutcome) (video : Video)
    (hready : (checkSubmitReady s).submitDisabled = false)
    (hvideo : getCurrentVideo s = some video) :
    ∃ a : Annotation, ( submitAnnotation s now outcome).state.sent = s.sent ++ [a]
      ∧ a.numberOfGroups = s.selectionBoxes.length ∧ a.groups = groupsOf s := by
  have hguard : ¬ (s.selectionBoxes.length > 0 ∧ allRated s = false) := by
    rintro ⟨hlen, hr⟩
    rcases (checkSubmitReady_submitDisabled s).mp hready with h | h
    · simp [h] at hlen
    · simp [h] at hr
  unfold submitAnnotation
  rw [if_neg hguard]
  have hv : ∀ x : State, x.videos = s.videos → x.currentVideoIndex = s.currentVideoIndex →
      getCurrentVideo x = some video := by
    intro x h1 h2
    rw [← hvideo]; unfold getCurrentVideo; rw [h1, h2]
  have hg : ∀ x : State, x.heap = s.heap → x.selectionBoxes = s.selectionBoxes →
      groupsOf x = groupsOf s := by
    intro x h1 h2
    unfold groupsOf; rw [h1, h2]
  obtain ⟨s1, hs1, hheap, hsel, hvid, hidx, hsent⟩ :
      ∃ s1, (if s.isPlaying then pause s now else s) = s1 ∧ s1.heap = s.heap
        ∧ s1.selectionBoxes = s.selectionBoxes ∧ s1.videos = s.videos
        ∧ s1.currentVideoIndex = s.currentVideoIndex ∧ s1.sent = s.sent :=
    ⟨_, rfl, by split <;> simp, by split <;> simp, by split <;> simp, by split <;> simp,
      by split <;> simp⟩
  simp only [hs1]
  rw [hv s1 hvid hidx]
  dsimp only
  refine ⟨recordOf s1 video now, ?_, by simp [recordOf, hsel],
    by simp [recordOf, hg s1 hheap hsel]⟩
  unfold saveAnnotation
  cases outcome <;> dsimp only <;> split <;>
    first
      | rw [loadVideo_caught_sent]; simp [hsent]
      | simp [Result.state, hsent]

theorem relabelFrom_spec (l : List Ref) : ∀ (i : Nat) (s : State), l.Nodup →
    (relabelFrom i l s).selectionBoxes = s.selectionBoxes
      ∧ (∀ r, r ∉ l → (relabelFrom i l s).heap r = s.heap r)
      ∧ (∀ m r, l[m]? = some r → (relabelFrom i l s).heap r =
          if (s.heap r).label.isSome then { s.heap r with label := some (i + m + 1) }
          else s.heap r) := by
  induction l with
  | nil =>
    intro i s _
    exact ⟨rfl, fun _ _ => rfl, fun m r h => by simp at h⟩
  | cons box rest ih =>
    intro i s hnd
    obtain ⟨hbox, hrest⟩ := List.nodup_cons.mp hnd
    obtain ⟨h1, h2, h3⟩ := ih (i + 1)
      (s.update box fun b => if b.label.isSome then { b with label := some (i + 1) } else b) hrest
    refine ⟨by rw [relabelFrom, h1]; rfl, ?_, ?_⟩
    · intro r hr
      simp only [List.mem_cons, not_or] at hr
      rw [relabelFrom, h2 r hr.2, update_heap_other _ _ _ _ hr.1]
    · intro m r hm
      cases m with
      | zero =>
        simp only [List.getElem?_cons_zero, Option.some.injEq] at hm
        subst hm
        rw [relabelFrom, h2 _ hbox, update_heap_same]
      | succ m =>
        simp only [List.getElem?_cons_succ] at hm
        have hne : r ≠ box := fun h => hbox (h ▸ List.getElem?_mem hm)
        rw [relabelFrom, h3 m r hm, update_heap_other _ _ _ _ hne]
        have : i + 1 + m + 1 = i + (m + 1) + 1 := by omega
        rw [this]

theorem labelled_getElem (s : State) (h : s.Labelled) (i : Nat) (r : Ref)
    (hr : s.selectionBoxes[i]? = some r) : (s.heap r).label = some (i + 1) := by
  unfold State.Labelled at h
  have hlt : i < s.selectionBoxes.length := by
    rcases Nat.lt_or_ge i s.selectionBoxes.length with h' | h'
    · exact h'
    · rw [List.getElem?_eq_none h'] at hr; cases hr
  have h2 := congrArg (fun l => l[i]?) h
  simp only [boxes_eq, List.map_map, List.getElem?_map, hr, Option.map_some', Function.comp,
    List.length_map] at h2
  rw [List.getElem?_range hlt] at h2
  simpa using h2

theorem updateResize_keeps (s : State) (e : MouseEvent) (lay : Layout) :
    (updateResize s e lay).selectionBoxes = s.selectionBoxes
      ∧ ∀ r, ((updateResize s e lay).heap r).confidence = (s.heap r).confidence
          ∧ ((updateResize s e lay).heap r).id = (s.heap r).id
          ∧ ((updateResize s e lay).heap r).label = (s.heap r).label := by
  unfold updateResize
  split
  · exact ⟨rfl, fun _ => ⟨rfl, rfl, rfl⟩⟩
  · split
    · exact ⟨rfl, fun _ => ⟨rfl, rfl, rfl⟩⟩
    · next cur _ =>
      dsimp only
      refine ⟨by split <;> rfl, ?_⟩
      intro r
      by_cases hr : r = cur
      · subst hr
        rw [updateBoxPosition_heap_same]
        split <;> simp
      · rw [updateBoxPosition_heap_other _ _ _ _ hr]
        split <;> simp [update_heap_other _ _ _ _ hr]

/-- The part of C7 that holds: a resize gesture changes neither the collection, nor the
confidence, id or label of any box. -/
theorem resize_keeps_confidence (s : State) (handle : Handle) (boxId : Int)
    (moves : List (MouseEvent × Layout)) :
    (resize s handle boxId moves).selectionBoxes = s.selectionBoxes
      ∧ (resize s handle boxId moves).boxes.map Box.confidence = s.boxes.map Box.confidence
      ∧ (resize s handle boxId moves).boxes.map Box.id = s.boxes.map Box.id
      ∧ (resize s handle boxId moves).boxes.map Box.label = s.boxes.map Box.label := by
  have key : ∀ (ms : List (MouseEvent × Layout)) (x : State),
      (ms.foldl (fun s m => updateResize s m.1 m.2) x).selectionBoxes = x.selectionBoxes
        ∧ ∀ r, ((ms.foldl (fun s m => updateResize s m.1 m.2) x).heap r).confidence
              = (x.heap r).confidence
            ∧ ((ms.foldl (fun s m => updateResize s m.1 m.2) x).heap r).id = (x.heap r).id
            ∧ ((ms.foldl (fun s m => updateResize s m.1 m.2) x).heap r).label
              = (x.heap r).label := by
    intro ms
    induction ms with
    | nil => intro x; exact ⟨rfl, fun _ => ⟨rfl, rfl, rfl⟩⟩
    | cons m rest ih =>
      intro x
      obtain ⟨h1, h2⟩ := ih (updateResize x m.1 m.2)
      obtain ⟨h3, h4⟩ := updateResize_keeps x m.1 m.2
      refine ⟨by rw [List.foldl_cons, h1, h3], fun r => ?_⟩
      rw [List.foldl_cons, (h2 r).1, (h2 r).2.1, (h2 r).2.2]
      exact h4 r
  obtain ⟨h1, h2⟩ := key moves (startResize s handle boxId)
  have hsel : (resize s handle boxId moves).selectionBoxes = s.selectionBoxes := by
    simp only [resize, endResize]; rw [h1]; rfl
  refine ⟨hsel, ?_, ?_, ?_⟩ <;>
  · simp only [boxes_eq, List.map_map, hsel]
    apply List.map_congr_left
    intro r _
    simp only [Function.comp, resize, endResize]
    first | exact (h2 r).1 | exact (h2 r).2.1 | exact (h2 r).2.2

/-! ## The invariant of the collection is kept by every operation on boxes -/

theorem ratingsValid_iff (s : State) :
    s.RatingsValid ↔ ∀ r ∈ s.selectionBoxes, ∀ c ∈ (s.heap r).confidence, 1 ≤ c ∧ c ≤ 5 := by
  simp [State.RatingsValid]

theorem labelled_iff (s : State) :
    s.Labelled ↔ ∀ (i : Nat) (r : Ref), s.selectionBoxes[i]? = some r →
      (s.heap r).label = some (i + 1) := by
  constructor
  · intro h i r hr
    exact labelled_getElem s h i r hr
  · intro h
    unfold State.Labelled
    apply List.ext_getElem?
    intro i
    simp only [boxes_eq, List.map_map, List.getElem?_map, List.length_map]
    cases hr : s.selectionBoxes[i]? with
    | none =>
      have hge : s.selectionBoxes.length ≤ i := by
        rcases Nat.lt_or_ge i s.selectionBoxes.length with h' | h'
        · rw [List.getElem?_eq_getElem h'] at hr; cases hr
        · exact h'
      simp [List.getElem?_eq_none, hge]
    | some r =>
      have hlt : i < s.selectionBoxes.length := (List.getElem?_eq_some.mp hr).1
      simp [List.getElem?_range hlt, h i r hr]

theorem initial_wellFormed : State.initial.WellFormed :=
  ⟨by simp [State.Allocated, State.initial], by simp [State.initial],
    by simp [State.RatingsValid, State.initial], by simp [State.Labelled, State.initial]⟩

/-- A state with the same collection whose boxes kept confidence and label is well formed
when the state it comes from is. -/
theorem wellFormed_of_same (s s' : State) (h : s.WellFormed)
    (hsel : s'.selectionBoxes = s.selectionBoxes) (hnext : s.nextRef ≤ s'.nextRef)
    (hkeep : ∀ r ∈ s.selectionBoxes, (s'.heap r).confidence = (s.heap r).confidence
      ∧ (s'.heap r).label = (s.heap r).label) : s'.WellFormed := by
  refine ⟨?_, by rw [hsel]; exact h.nodup, ?_, ?_⟩
  · intro r hr
    rw [hsel] at hr
    exact Nat.lt_of_lt_of_le (h.allocated r hr) hnext
  · rw [ratingsValid_iff, hsel]
    intro r hr c hc
    rw [(hkeep r hr).1] at hc
    exact (ratingsValid_iff s).mp h.ratings r hr c hc
  · rw [labelled_iff, hsel]
    intro i r hr
    rw [(hkeep r (List.getElem?_mem hr)).2]
    exact (labelled_iff s).mp h.labelled i r hr

theorem checkSubmitReady_wellFormed (s : State) (h : s.WellFormed) :
    (checkSubmitReady s).WellFormed :=
  wellFormed_of_same s _ h (by simp) (by simp) (fun r _ => by simp)

theorem startDrawing_wellFormed (s : State) (e : MouseEvent) (lay : Layout) (now : Int)
    (h : s.WellFormed) : (startDrawing s e lay now).WellFormed := by
  unfold startDrawing
  dsimp only
  split
  · exact h
  · refine wellFormed_of_same s _ h (by simp) (by simp) ?_
    intro r hr
    have hne : r ≠ s.nextRef := Nat.ne_of_lt (h.allocated r hr)
    simp [updateBoxPosition_heap_other _ _ _ _ hne, Function.update_noteq hne]

theorem updateDrawing_wellFormed (s : State) (e : MouseEvent) (lay : Layout)
    (h : s.WellFormed) : (updateDrawing s e lay).WellFormed := by
  unfold updateDrawing
  split
  · exact h
  · split
    · exact h
    · next cur _ =>
      refine wellFormed_of_same s _ h (by simp) (by simp) ?_
      intro r _
      by_cases hr : r = cur
      · subst hr; simp
      · simp [updateBoxPosition_heap_other _ _ _ _ hr, update_heap_other _ _ _ _ hr]

theorem endDrawing_wellFormed (s : State) (lay : Layout) (h : s.WellFormed) :
    (endDrawing s lay).WellFormed := by
  by_cases hd : s.isDrawing = true
  swap
  · have : endDrawing s lay = s := by simp [endDrawing, hd]
    rw [this]; exact h
  cases hc : s.currentBox with
  | none =>
    have : endDrawing s lay = s := by simp [endDrawing, hd, hc]
    rw [this]; exact h
  | some cur =>
    cases hsize : (Num.lt (Num.abs (Num.sub (s.heap cur).endX (s.heap cur).startX)) (.fin 10)
        || Num.lt (Num.abs (Num.sub (s.heap cur).endY (s.heap cur).startY)) (.fin 10)) with
    | true =>
      obtain ⟨hsel, hframe⟩ := endDrawing_discard s lay cur hd hc hsize
      refine wellFormed_of_same s _ h hsel (endDrawing_nextRef_le s lay) ?_
      intro r hr
      rw [hframe r (Nat.ne_of_lt (h.allocated r hr))]
      exact ⟨rfl, rfl⟩
    | false =>
      obtain ⟨hsel, hframe, st, hst⟩ := endDrawing_commit s lay cur hd hc hsize
      have hnew : s.nextRef ∉ s.selectionBoxes := fun hm =>
        Nat.lt_irrefl _ (h.allocated _ hm)
      have hnext : (endDrawing s lay).nextRef = s.nextRef + 1 := by
        unfold endDrawing
        simp [hd, hc, hsize, addBoxHandles]
      refine ⟨?_, ?_, ?_, ?_⟩
      · intro r hr
        rw [hsel, List.mem_append, List.mem_singleton] at hr
        rw [hnext]
        rcases hr with hr | hr
        · exact Nat.lt_succ_of_lt (h.allocated r hr)
        · rw [hr]; exact Nat.lt_succ_self _
      · rw [hsel]
        exact List.Nodup.append h.nodup (List.nodup_singleton _)
          (by
            intro a ha hb
            rw [List.mem_singleton] at hb
            exact hnew (hb ▸ ha))
      · rw [ratingsValid_iff, hsel]
        intro r hr c hc'
        rw [List.mem_append, List.mem_singleton] at hr
        rcases hr with hr | hr
        · rw [hframe r (Nat.ne_of_lt (h.allocated r hr))] at hc'
          exact (ratingsValid_iff s).mp h.ratings r hr c hc'
        · rw [hr, hst] at hc'
          simp at hc'
      · rw [labelled_iff, hsel]
        intro i r hr
        rcases Nat.lt_or_ge i s.selectionBoxes.length with hi | hi
        · rw [List.getElem?_append_left hi] at hr
          rw [hframe r (Nat.ne_of_lt (h.allocated r (List.getElem?_mem hr)))]
          exact (labelled_iff s).mp h.labelled i r hr
        · rw [List.getElem?_append_right hi] at hr
          have hi0 : i - s.selectionBoxes.length = 0 := by
            rcases Nat.eq_zero_or_pos (i - s.selectionBoxes.length) with h0 | h0
            · exact h0
            · rw [List.getElem?_eq_none (by simpa using Nat.succ_le_of_lt h0)] at hr; cases hr
          rw [hi0] at hr
          simp only [List.getElem?_cons_zero, Option.some.injEq] at hr
          subst hr
          rw [hst]
          have : i = s.selectionBoxes.length := by omega
          simp [this]

theorem drag_wellFormed (s : State) (down : MouseEvent × Layout) (now : Int)
    (moves : List (MouseEvent × Layout)) (up : Layout) (h : s.WellFormed) :
    (drag s down now moves up).WellFormed := by
  have key : ∀ (ms : List (MouseEvent × Layout)) (x : State), x.WellFormed →
      (ms.foldl (fun s m => updateDrawing s m.1 m.2) x).WellFormed := by
    intro ms
    induction ms with
    | nil => intro x hx; exact hx
    | cons m rest ih => intro x hx; exact ih _ (updateDrawing_wellFormed x m.1 m.2 hx)
  exact endDrawing_wellFormed _ up (key moves _ (startDrawing_wellFormed s down.1 down.2 now h))

theorem resize_wellFormed (s : State) (handle : Handle) (boxId : Int)
    (moves : List (MouseEvent × Layout)) (h : s.WellFormed) :
    (resize s handle boxId moves).WellFormed := by
  obtain ⟨hsel, hconf, _, hlab⟩ := resize_keeps_confidence s handle boxId moves
  have hnext : ∀ (ms : List (MouseEvent × Layout)) (x : State),
      (ms.foldl (fun s m => updateResize s m.1 m.2) x).nextRef = x.nextRef := by
    intro ms
    induction ms with
    | nil => intro x; rfl
    | cons m rest ih =>
      intro x
      rw [List.foldl_cons, ih]
      unfold updateResize
      split
      · rfl
      · split
        · rfl
        · dsimp only; split <;> rfl
  refine ⟨?_, by rw [hsel]; exact h.nodup, ?_, ?_⟩
  · intro r hr
    rw [hsel] at hr
    have : (resize s handle boxId moves).nextRef = s.nextRef := by
      simp only [resize, endResize]; rw [hnext]; rfl
    rw [this]; exact h.allocated r hr
  · intro b hb c hc
    have hmem : b.confidence ∈ (resize s handle boxId moves).boxes.map Box.confidence :=
      List.mem_map_of_mem _ hb
    rw [hconf, List.mem_map] at hmem
    obtain ⟨b0, hb0, hb0c⟩ := hmem
    exact h.ratings b0 hb0 c (by rw [hb0c]; exact hc)
  · unfold State.Labelled
    rw [hlab, h.labelled]
    simp only [boxes_eq, List.length_map, hsel]

theorem setBoxRating_wellFormed (s : State) (boxId : Int) (rating : Nat)
    (hr : 1 ≤ rating ∧ rating ≤ 5) (h : s.WellFormed) :
    (setBoxRating s boxId rating).WellFormed := by
  unfold setBoxRating
  apply checkSubmitReady_wellFormed
  split
  · next box _ =>
    refine ⟨h.allocated, h.nodup, ?_, ?_⟩
    · rw [ratingsValid_iff]
      intro r hmem c hc
      by_cases hrb : r = box
      · subst hrb
        simp only [update_heap_same, Option.mem_def, Option.some.injEq] at hc
        omega
      · rw [update_heap_other _ _ _ _ hrb] at hc
        exact (ratingsValid_iff s).mp h.ratings r hmem c hc
    · rw [labelled_iff]
      intro i r hi
      by_cases hrb : r = box
      · subst hrb
        simp only [update_heap_same]
        exact (labelled_iff s).mp h.labelled i r hi
      · rw [update_heap_other _ _ _ _ hrb]
        exact (labelled_iff s).mp h.labelled i r hi
  · exact h

theorem deleteBox_wellFormed (s : State) (box : Ref) (h : s.WellFormed) :
    (deleteBox s box).WellFormed := by
  unfold deleteBox updateBoxLabels
  apply checkSubmitReady_wellFormed
  have key : ∀ l : List Ref, l.Sublist s.selectionBoxes → l.Nodup →
      (relabelFrom 0 l { s with selectionBoxes := l }).WellFormed := by
    intro l hsub hnd
    obtain ⟨h1, h2, h3⟩ := relabelFrom_spec l 0 { s with selectionBoxes := l } hnd
    have hval : ∀ r, ((relabelFrom 0 l { s with selectionBoxes := l }).heap r).confidence
        = (s.heap r).confidence := by
      intro r
      by_cases hr : r ∈ l
      · obtain ⟨m, hm⟩ := List.mem_iff_getElem?.mp hr
        rw [h3 m r hm]
        split <;> rfl
      · rw [h2 r hr]
    have hnext : (relabelFrom 0 l { s with selectionBoxes := l }).nextRef = s.nextRef := by
      have : ∀ (l' : List Ref) (i : Nat) (x : State), (relabelFrom i l' x).nextRef = x.nextRef := by
        intro l'
        induction l' with
        | nil => intro i x; rfl
        | cons a rest ih => intro i x; rw [relabelFrom, ih]; rfl
      rw [this]
    refine ⟨?_, by rw [h1]; exact hnd, ?_, ?_⟩
    · intro r hr
      rw [h1] at hr
      rw [hnext]
      exact h.allocated r (hsub.subset hr)
    · rw [ratingsValid_iff, h1]
      intro r hr c hc
      rw [hval r] at hc
      exact (ratingsValid_iff s).mp h.ratings r (hsub.subset hr) c hc
    · rw [labelled_iff, h1]
      intro m r hm
      rw [h3 m r hm]
      obtain ⟨m', hm'⟩ := List.mem_iff_getElem?.mp (hsub.subset (List.getElem?_mem hm))
      have hl := (labelled_iff s).mp h.labelled m' r hm'
      simp [hl]
  split
  · exact key _ (List.eraseIdx_sublist _ _) (h.nodup.eraseIdx _)
  · exact key _ (List.Sublist.refl _) h.nodup

theorem shiftAll_eq_nil (l : List Ref) : shiftAll l = [] := by
  induction l with
  | nil => rfl
  | cons _ rest ih => rw [shiftAll, ih]

theorem clearAllBoxes_wellFormed (s : State) : (clearAllBoxes s).WellFormed := by
  refine ⟨?_, ?_, ?_, ?_⟩ <;>
    simp [clearAllBoxes, shiftAll_eq_nil, State.Allocated, State.RatingsValid, State.Labelled]

/-! ## Playback, geometry and clip position -/

section readyFields
variable (s : State)
@[simp] theorem checkSubmitReady_currentVideoIndex :
    (checkSubmitReady s).currentVideoIndex = s.currentVideoIndex := by
  unfold checkSubmitReady; split <;> rfl
@[simp] theorem checkSubmitReady_globalVideoIndex :
    (checkSubmitReady s).globalVideoIndex = s.globalVideoIndex := by
  unfold checkSubmitReady; split <;> rfl
@[simp] theorem checkSubmitReady_totalVideos :
    (checkSubmitReady s).totalVideos = s.totalVideos := by
  unfold checkSubmitReady; split <;> rfl
@[simp] theorem checkSubmitReady_videos :
    (checkSubmitReady s).videos = s.videos := by
  unfold checkSubmitReady; split <;> rfl
@[simp] theorem checkSubmitReady_totalFrames :
    (checkSubmitReady s).totalFrames = s.totalFrames := by
  unfold checkSubmitReady; split <;> rfl
@[simp] theorem checkSubmitReady_frameRate :
    (checkSubmitReady s).frameRate = s.frameRate := by
  unfold checkSubmitReady; split <;> rfl
@[simp] theorem checkSubmitReady_isPlaying :
    (checkSubmitReady s).isPlaying = s.isPlaying := by
  unfold checkSubmitReady; split <;> rfl
@[simp] theorem checkSubmitReady_currentFrame :
    (checkSubmitReady s).currentFrame = s.currentFrame := by
  unfold checkSubmitReady; split <;> rfl
@[simp] theorem checkSubmitReady_hasWatchedVideo :
    (checkSubmitReady s).hasWatchedVideo = s.hasWatchedVideo := by
  unfold checkSubmitReady; split <;> rfl
@[simp] theorem checkSubmitReady_videoPlayStartTime :
    (checkSubmitReady s).videoPlayStartTime = s.videoPlayStartTime := by
  unfold checkSubmitReady; split <;> rfl
@[simp] theorem checkSubmitReady_totalWatchTime :
    (checkSubmitReady s).totalWatchTime = s.totalWatchTime := by
  unfold checkSubmitReady; split <;> rfl
@[simp] theorem checkSubmitReady_playbackSpeed :
    (checkSubmitReady s).playbackSpeed = s.playbackSpeed := by
  unfold checkSubmitReady; split <;> rfl
@[simp] theorem checkSubmitReady_isDrawing :
    (checkSubmitReady s).isDrawing = s.isDrawing := by
  unfold checkSubmitReady; split <;> rfl
@[simp] theorem checkSubmitReady_isResizing :
    (checkSubmitReady s).isResizing = s.isResizing := by
  unfold checkSubmitReady; split <;> rfl
@[simp] theorem checkSubmitReady_currentBox :
    (checkSubmitReady s).currentBox = s.currentBox := by
  unfold checkSubmitReady; split <;> rfl
@[simp] theorem checkSubmitReady_resizeHandle :
    (checkSubmitReady s).resizeHandle = s.resizeHandle := by
  unfold checkSubmitReady; split <;> rfl
@[simp] theorem checkSubmitReady_playInterval :
    (checkSubmitReady s).playInterval = s.playInterval := by
  unfold checkSubmitReady; split <;> rfl
@[simp] theorem checkSubmitReady_timers :
    (checkSubmitReady s).timers = s.timers := by
  unfold checkSubmitReady; split <;> rfl
@[simp] theorem checkSubmitReady_nextTimer :
    (checkSubmitReady s).nextTimer = s.nextTimer := by
  unfold checkSubmitReady; split <;> rfl
@[simp] theorem checkSubmitReady_alerts :
    (checkSubmitReady s).alerts = s.alerts := by
  unfold checkSubmitReady; split <;> rfl
@[simp] theorem checkSubmitReady_console :
    (checkSubmitReady s).console = s.console := by
  unfold checkSubmitReady; split <;> rfl
@[simp] theorem checkSubmitReady_location :
    (checkSubmitReady s).location = s.location := by
  unfold checkSubmitReady; split <;> rfl
end readyFields

theorem play_totalWatchTime (s : State) (now : Int) :
    (play s now).totalWatchTime = s.totalWatchTime := by
  unfold play
  by_cases hw : s.hasWatchedVideo <;> by_cases hp : truthy s.videoPlayStartTime <;> simp [hw, hp]

theorem play_videoPlayStartTime (s : State) (now : Int) :
    (play s now).videoPlayStartTime
      = if truthy s.videoPlayStartTime then s.videoPlayStartTime else some now := by
  unfold play
  by_cases hw : s.hasWatchedVideo <;> by_cases hp : truthy s.videoPlayStartTime <;> simp [hw, hp]

theorem play_isPlaying (s : State) (now : Int) : (play s now).isPlaying = true := by
  unfold play
  by_cases hw : s.hasWatchedVideo <;> by_cases hp : truthy s.videoPlayStartTime <;> simp [hw, hp]

theorem pause_flush (s : State) (now start : Int) (h : s.videoPlayStartTime = some start)
    (h0 : start ≠ 0) :
    (pause s now).totalWatchTime = s.totalWatchTime + (now - start)
      ∧ (pause s now).videoPlayStartTime = none := by
  simp [pause, flushWatchTime, h, h0]

theorem pause_noflush (s : State) (now : Int) (h : truthy s.videoPlayStartTime = false) :
    (pause s now).totalWatchTime = s.totalWatchTime
      ∧ (pause s now).videoPlayStartTime = s.videoPlayStartTime := by
  unfold pause flushWatchTime
  cases hs : s.videoPlayStartTime with
  | none => simp [hs]
  | some start =>
    have : start = 0 := by simpa [truthy, hs] using h
    simp [this, hs]

/-- What `resetVideoState` leaves in the playback fields. -/
theorem resetVideoState_playback (s : State) (now : Int) :
    (resetVideoState s now).currentFrame = 0
      ∧ (resetVideoState s now).isPlaying = false
      ∧ (resetVideoState s now).hasWatchedVideo = false
      ∧ (resetVideoState s now).totalWatchTime = 0
      ∧ (resetVideoState s now).videoPlayStartTime = none
      ∧ (resetVideoState s now).playbackSpeed = s.playbackSpeed
      ∧ (resetVideoState s now).selectionBoxes = s.selectionBoxes
      ∧ (resetVideoState s now).currentVideoIndex = s.currentVideoIndex
      ∧ (resetVideoState s now).totalVideos = s.totalVideos := by
  unfold resetVideoState
  by_cases hp : s.isPlaying
  · simp only [hp, if_true, checkSubmitReady_currentFrame, checkSubmitReady_isPlaying,
      checkSubmitReady_hasWatchedVideo, checkSubmitReady_totalWatchTime,
      checkSubmitReady_videoPlayStartTime, checkSubmitReady_playbackSpeed,
      checkSubmitReady_selectionBoxes, checkSubmitReady_currentVideoIndex,
      checkSubmitReady_totalVideos, pause_currentFrame, pause_isPlaying,
      pause_hasWatchedVideo, pause_playbackSpeed, pause_selectionBoxes,
      pause_currentVideoIndex, pause_totalVideos]
    have hn := pause_noflush
      { s with hasWatchedVideo := false, totalWatchTime := 0, videoPlayStartTime := none,
               currentFrame := 0 } now rfl
    exact ⟨trivial, trivial, trivial, hn.1, hn.2, trivial, trivial, trivial, trivial⟩
  · simp [hp]

theorem pause_timers (s : State) (now : Int) (h : Nat) (hs : s.playInterval = some h)
    (h0 : h ≠ 0) : (pause s now).timers = s.timers.filter fun t => t.handle ≠ h := by
  have hpi : (flushWatchTime s now).playInterval = some h := by
    unfold flushWatchTime; split <;> (try split) <;> exact hs
  have hti : (flushWatchTime s now).timers = s.timers := by
    unfold flushWatchTime; split <;> (try split) <;> rfl
  simp [pause, clearPlayInterval, hpi, h0, hti]

theorem pause_pausedFrom (s : State) (now : Int) : PausedFrom s (pause s now) now := by
  refine ⟨pause_isPlaying s now, fun start hs h0 => pause_flush s now start hs h0, ?_⟩
  intro h hs h0 t ht
  rw [pause_timers s now h hs h0, List.mem_filter] at ht
  simpa using ht.2

theorem pausedFrom_setFrame (s r : State) (now f : Int) (h : PausedFrom s r now) :
    PausedFrom s { r with currentFrame := f } now := h

namespace Num
@[simp] theorem add_fin (a b : ℚ) : add (fin a) (fin b) = fin (a + b) := rfl
end Num

theorem display_of_normalizedX (p w : ℚ) (hw : w ≠ 0) :
    Num.mul (Num.div (Num.mul (Num.div (.fin p) (.fin w)) NORMALIZED_WIDTH) NORMALIZED_WIDTH)
      (.fin w) = .fin p := by
  have h : (1920 : ℚ) ≠ 0 := by norm_num
  simp only [NORMALIZED_WIDTH, Num.div_fin _ _ hw, Num.mul_fin, Num.div_fin _ _ h]
  congr 1
  field_simp
  ring

theorem display_of_normalizedY (p w : ℚ) (hw : w ≠ 0) :
    Num.mul (Num.div (Num.mul (Num.div (.fin p) (.fin w)) NORMALIZED_HEIGHT) NORMALIZED_HEIGHT)
      (.fin w) = .fin p := by
  have h : (1080 : ℚ) ≠ 0 := by norm_num
  simp only [NORMALIZED_HEIGHT, Num.div_fin _ _ hw, Num.mul_fin, Num.div_fin _ _ h]
  congr 1
  field_simp
  ring

theorem updateBoxPosition_rect (s : State) (box : Ref) (lay : Layout) (r : Ref) :
    ((updateBoxPosition s box lay).heap r).rect = (s.heap r).rect := by
  by_cases h : r = box
  · subst h; rw [updateBoxPosition_heap_same]; rfl
  · rw [updateBoxPosition_heap_other _ _ _ _ h]

theorem repositionEach_keeps (lay : Layout) (l : List Ref) :
    ∀ s : State, (repositionEach lay l s).selectionBoxes = s.selectionBoxes
      ∧ ∀ r, ((repositionEach lay l s).heap r).rect = (s.heap r).rect := by
  induction l with
  | nil => intro s; exact ⟨rfl, fun _ => rfl⟩
  | cons box rest ih =>
    intro s
    obtain ⟨h1, h2⟩ := ih (updateBoxPosition s box lay)
    refine ⟨by rw [repositionEach, h1]; rfl, fun r => ?_⟩
    rw [repositionEach, h2 r, updateBoxPosition_rect]

theorem startDrawing_style (s : State) (e : MouseEvent) (lay : Layout) (now : Int)
    (hw : lay.image.width ≠ 0) (hh : lay.image.height ≠ 0) :
    ((startDrawing s e lay now).heap s.nextRef).style = some
      { left := .fin (lay.image.left - lay.canvas.left + (e.clientX - lay.image.left))
        top := .fin (lay.image.top - lay.canvas.top + (e.clientY - lay.image.top))
        width := .fin 0
        height := .fin 0 } := by
  unfold startDrawing
  simp only [hw, hh, or_self, if_false, updateBoxPosition_heap_same, displayStyle,
    Function.update_same]
  have hx := display_of_normalizedX (e.clientX - lay.image.left) lay.image.width hw
  have hy := display_of_normalizedY (e.clientY - lay.image.top) lay.image.height hh
  rw [normalizedX_fin e lay hw] at hx
  rw [normalizedY_fin e lay hh] at hy
  simp only [normalizedX_fin e lay hw, normalizedY_fin e lay hh, Num.min_fin, Num.max_fin,
    min_self, max_self, hx, hy, Num.sub_fin, Num.add_fin, sub_self]

/-! ## Which operations move the clip position -/

theorem sameSession_refl (s : State) : SameSession s s := ⟨rfl, rfl⟩

theorem sameSession_trans {s r q : State} (h1 : SameSession s r) (h2 : SameSession r q) :
    SameSession s q := ⟨h2.1.trans h1.1, h2.2.trans h1.2⟩

theorem checkSubmitReady_same (s : State) : SameSession s (checkSubmitReady s) :=
  ⟨checkSubmitReady_currentVideoIndex s, checkSubmitReady_totalVideos s⟩

theorem pause_same (s : State) (now : Int) : SameSession s (pause s now) :=
  ⟨pause_currentVideoIndex s now, pause_totalVideos s now⟩

theorem play_same (s : State) (now : Int) : SameSession s (play s now) := by
  unfold play SameSession
  by_cases hw : s.hasWatchedVideo <;> by_cases hp : truthy s.videoPlayStartTime <;> simp [hw, hp]

theorem tick_same (s : State) : SameSession s (tick s) := by
  unfold tick SameSession
  dsimp only
  split <;> exact ⟨rfl, rfl⟩

theorem startDrawing_same (s : State) (e : MouseEvent) (lay : Layout) (now : Int) :
    SameSession s (startDrawing s e lay now) := by
  unfold startDrawing
  dsimp only
  split <;> exact ⟨rfl, rfl⟩

theorem updateDrawing_same (s : State) (e : MouseEvent) (lay : Layout) :
    SameSession s (updateDrawing s e lay) := by
  unfold updateDrawing
  split
  · exact ⟨rfl, rfl⟩
  · split <;> exact ⟨rfl, rfl⟩

theorem endDrawing_same (s : State) (lay : Layout) : SameSession s (endDrawing s lay) := by
  unfold endDrawing
  split
  · exact ⟨rfl, rfl⟩
  · split
    · exact ⟨rfl, rfl⟩
    · dsimp only
      refine sameSession_trans ?_ (checkSubmitReady_same _)
      split <;> exact ⟨rfl, rfl⟩

theorem updateResize_same (s : State) (e : MouseEvent) (lay : Layout) :
    SameSession s (updateResize s e lay) := by
  unfold updateResize
  split
  · exact ⟨rfl, rfl⟩
  · split
    · exact ⟨rfl, rfl⟩
    · dsimp only
      split <;> exact ⟨rfl, rfl⟩

theorem relabelFrom_same (l : List Ref) :
    ∀ (i : Nat) (s : State), SameSession s (relabelFrom i l s) := by
  induction l with
  | nil => intro i s; exact ⟨rfl, rfl⟩
  | cons box rest ih =>
    intro i s
    rw [relabelFrom]
    exact sameSession_trans ⟨rfl, rfl⟩ (ih _ _)

theorem deleteBox_same (s : State) (box : Ref) : SameSession s (deleteBox s box) := by
  unfold deleteBox updateBoxLabels
  refine sameSession_trans ?_ (checkSubmitReady_same _)
  refine sameSession_trans ?_ (relabelFrom_same _ _ _)
  split <;> exact ⟨rfl, rfl⟩

theorem setBoxRating_same (s : State) (boxId : Int) (rating : Nat) :
    SameSession s (setBoxRating s boxId rating) := by
  unfold setBoxRating
  refine sameSession_trans ?_ (checkSubmitReady_same _)
  split <;> exact ⟨rfl, rfl⟩

theorem repositionEach_same (lay : Layout) (l : List Ref) :
    ∀ s : State, SameSession s (repositionEach lay l s) := by
  induction l with
  | nil => intro s; exact ⟨rfl, rfl⟩
  | cons box rest ih =>
    intro s
    rw [repositionEach]
    exact sameSession_trans ⟨rfl, rfl⟩ (ih _)

theorem setPlaybackSpeed_same (s : State) (speed : ℚ) (now : Int) :
    SameSession s (setPlaybackSpeed s speed now) := by
  unfold setPlaybackSpeed
  dsimp only
  split
  · exact sameSession_trans
      (@sameSession_trans s { s with playbackSpeed := speed } _ ⟨rfl, rfl⟩ (pause_same _ now))
      (play_same _ now)
  · exact ⟨rfl, rfl⟩

theorem nextFrame_same (s : State) (now : Int) : SameSession s (nextFrame s now) := by
  unfold nextFrame
  by_cases hp : s.isPlaying
  · simp only [hp, if_true]; exact sameSession_trans (pause_same s now) ⟨rfl, rfl⟩
  · simp only [hp]; exact ⟨rfl, rfl⟩

theorem previousFrame_same (s : State) (now : Int) : SameSession s (previousFrame s now) := by
  unfold previousFrame
  by_cases hp : s.isPlaying
  · simp only [hp, if_true]; exact sameSession_trans (pause_same s now) ⟨rfl, rfl⟩
  · simp only [hp]; exact ⟨rfl, rfl⟩

theorem skipFrames_same (s : State) (count now : Int) :
    SameSession s (skipFrames s count now) := by
  unfold skipFrames
  by_cases hp : s.isPlaying
  · simp only [hp, if_true]; exact sameSession_trans (pause_same s now) ⟨rfl, rfl⟩
  · simp only [hp]; exact ⟨rfl, rfl⟩

theorem handleKeyDown_same (s : State) (e : KeyEvent) (now : Int) :
    SameSession s (handleKeyDown s e now) := by
  unfold handleKeyDown
  split
  · exact ⟨rfl, rfl⟩
  · split
    · split
      · exact pause_same s now
      · exact play_same s now
    · dsimp only
      split
      · exact sameSession_trans ⟨rfl, rfl⟩ (skipFrames_same _ _ now)
      · exact sameSession_trans ⟨rfl, rfl⟩ (nextFrame_same _ now)
    · dsimp only
      split
      · exact sameSession_trans ⟨rfl, rfl⟩ (skipFrames_same _ _ now)
      · exact sameSession_trans ⟨rfl, rfl⟩ (previousFrame_same _ now)
    · exact ⟨rfl, rfl⟩

theorem handleMouseUp_same (s : State) (lay : Layout) : SameSession s (handleMouseUp s lay) := by
  unfold handleMouseUp
  split
  · exact endDrawing_same s lay
  · split <;> exact ⟨rfl, rfl⟩

/-- What `loadVideo` does to the clip position: nothing when `index >= totalVideos`, and
otherwise it sets `currentVideoIndex = index`, also when it throws. -/
theorem loadVideo_position (s : State) (index : Nat) (now : Int) :
    (loadVideo s index now).state.totalVideos = s.totalVideos
      ∧ (s.totalVideos ≤ index → loadVideo s index now = .ok s)
      ∧ (index < s.totalVideos → (loadVideo s index now).state.currentVideoIndex = index) := by
  unfold loadVideo
  by_cases h : index ≥ s.totalVideos
  · rw [if_pos h]
    exact ⟨rfl, fun _ => rfl, fun h' => absurd h (Nat.not_le.mpr h')⟩
  · rw [if_neg h]
    dsimp only
    have hr := resetVideoState_playback
      (clearAllBoxes
        { s with currentVideoIndex := index, globalVideoIndex := s.globalVideoIndex + 1 }) now
    refine ⟨?_, fun h' => absurd h' h, fun _ => ?_⟩
    · split
      · rfl
      · simp only [Result.state]; rw [hr.2.2.2.2.2.2.2.2]; rfl
    · split
      · rfl
      · simp only [Result.state]; rw [hr.2.2.2.2.2.2.2.1]; rfl

theorem loadVideo_location (s : State) (index : Nat) (now : Int) :
    (loadVideo s index now).state.location = s.location := by
  unfold loadVideo
  split
  · rfl
  · dsimp only
    split
    · rfl
    · simp only [Result.state, resetVideoState, checkSubmitReady_location]
      split <;> simp [clearAllBoxes]

theorem saveAnnotation_same (s : State) (record : Annotation) (outcome : FetchOutcome) :
    SameSession s ( saveAnnotation s record outcome)
      ∧ ( saveAnnotation s record outcome).location = s.location := by
  unfold saveAnnotation
  cases outcome <;> exact ⟨⟨rfl, rfl⟩, rfl⟩

/-- The continuation of `submitAnnotation` after the save, on a state `x`: the next clip or
the completion view. -/
theorem afterSave_position (x : State) (now : Int) (msg : String) :
    (x.currentVideoIndex + 1 < x.totalVideos →
        ∃ r, (match loadVideo x (x.currentVideoIndex + 1) now with
              | .ok s => Result.ok s
              | .threw s => Result.ok { s with alerts := s.alerts ++ [msg] }) = .ok r
          ∧ r.currentVideoIndex = x.currentVideoIndex + 1 ∧ r.totalVideos = x.totalVideos
          ∧ r.location = x.location)
      ∧ ((x.currentVideoIndex : Int) < (x.totalVideos : Int) - 1
          ↔ x.currentVideoIndex + 1 < x.totalVideos) := by
  refine ⟨fun h => ?_, by omega⟩
  obtain ⟨h1, _, h3⟩ := loadVideo_position x (x.currentVideoIndex + 1) now
  have h3' := h3 h
  have h4 := loadVideo_location x (x.currentVideoIndex + 1) now
  cases hl : loadVideo x (x.currentVideoIndex + 1) now with
  | ok r =>
    rw [hl] at h1 h3' h4
    exact ⟨r, rfl, h3', h1, h4⟩
  | threw r =>
    rw [hl] at h1 h3' h4
    exact ⟨_, rfl, h3', h1, h4⟩

/-- What `submitAnnotation` does to the clip position, from a ready state with a current
video. -/
theorem submitAnnotation_position (s : State) (now : Int) (outcome : FetchOutcome)
    (video : Video) (hready : (checkSubmitReady s).submitDisabled = false)
    (hvideo : getCurrentVideo s = some video) :
    (s.currentVideoIndex + 1 < s.totalVideos →
        ∃ r, submitAnnotation s now outcome = .ok r
          ∧ r.currentVideoIndex = s.currentVideoIndex + 1 ∧ r.totalVideos = s.totalVideos
          ∧ r.location = s.location)
      ∧ (¬ s.currentVideoIndex + 1 < s.totalVideos →
        ∃ r, submitAnnotation s now outcome = .ok r
          ∧ r.currentVideoIndex = s.currentVideoIndex ∧ r.totalVideos = s.totalVideos
          ∧ r.location = some "/thank_you") := by
  have hguard : ¬ (s.selectionBoxes.length > 0 ∧ allRated s = false) := by
    rintro ⟨hlen, hr⟩
    rcases (checkSubmitReady_submitDisabled s).mp hready with h | h
    · simp [h] at hlen
    · simp [h] at hr
  obtain ⟨s1, hs1, hsame, hvid, hidx, hloc⟩ :
      ∃ s1, (if s.isPlaying then pause s now else s) = s1 ∧ SameSession s s1
        ∧ s1.videos = s.videos ∧ s1.currentVideoIndex = s.currentVideoIndex
        ∧ s1.location = s.location :=
    ⟨_, rfl, by split; exact pause_same s now; exact ⟨rfl, rfl⟩, by split <;> simp,
      by split <;> simp, by split <;> simp⟩
  have hv1 : getCurrentVideo s1 = some video := by
    rw [← hvideo]; unfold getCurrentVideo; rw [hvid, hidx]
  obtain ⟨hsame2, hloc2⟩ := saveAnnotation_same s1 (recordOf s1 video now) outcome
  obtain ⟨hnext, hiff⟩ := afterSave_position ( saveAnnotation s1 (recordOf s1 video now) outcome)
    now "Error saving annotation. Please check the console."
  have hi2 := hsame2.1.trans hsame.1
  have ht2 := hsame2.2.trans hsame.2
  constructor
  · intro h
    obtain ⟨r, hr, hr1, hr2, hr3⟩ := hnext (by rw [hi2, ht2]; exact h)
    refine ⟨r, ?_, by rw [hr1, hi2], by rw [hr2, ht2], by rw [hr3, hloc2, hloc]⟩
    unfold submitAnnotation
    rw [if_neg hguard]
    simp only [hs1, hv1]
    rw [if_pos (hiff.mpr (by rw [hi2, ht2]; exact h))]
    exact hr
  · intro h
    refine ⟨{ saveAnnotation s1 (recordOf s1 video now) outcome with
      location := some "/thank_you" }, ?_, hi2, ht2, rfl⟩
    unfold submitAnnotation
    rw [if_neg hguard]
    simp only [hs1, hv1]
    rw [if_neg (fun h' => h (by have := hiff.mp h'; rw [hi2, ht2] at this; exact this))]

/-- Whatever the state, `submitAnnotation` keeps `totalVideos` and either keeps
`currentVideoIndex` or moves it to the next index, which is then below `totalVideos`. -/
theorem submitAnnotation_advance (s : State) (now : Int) (outcome : FetchOutcome) :
    ( submitAnnotation s now outcome).state.totalVideos = s.totalVideos
      ∧ (( submitAnnotation s now outcome).state.currentVideoIndex = s.currentVideoIndex
        ∨ (( submitAnnotation s now outcome).state.currentVideoIndex = s.currentVideoIndex + 1
          ∧ s.currentVideoIndex + 1 < s.totalVideos)) := by
  unfold submitAnnotation
  split
  · exact ⟨rfl, Or.inl rfl⟩
  · obtain ⟨s1, hs1, hsame⟩ :
        ∃ s1, (if s.isPlaying then pause s now else s) = s1 ∧ SameSession s s1 :=
      ⟨_, rfl, by split; exact pause_same s now; exact ⟨rfl, rfl⟩⟩
    simp only [hs1]
    cases hv : getCurrentVideo s1 with
    | none => exact ⟨hsame.2, Or.inl hsame.1⟩
    | some video =>
      dsimp only
      obtain ⟨hsame2, _⟩ := saveAnnotation_same s1 (recordOf s1 video now) outcome
      obtain ⟨hnext, hiff⟩ := afterSave_position
        ( saveAnnotation s1 (recordOf s1 video now) outcome) now
        "Error saving annotation. Please check the console."
      have hi2 := hsame2.1.trans hsame.1
      have ht2 := hsame2.2.trans hsame.2
      split
      · next hlt =>
        have hlt' := hiff.mp hlt
        obtain ⟨r, hr, hr1, hr2, _⟩ := hnext hlt'
        rw [hr]
        rw [hi2, ht2] at hlt'
        exact ⟨by simp only [Result.state]; rw [hr2, ht2],
          Or.inr ⟨by simp only [Result.state]; rw [hr1, hi2], hlt'⟩⟩
      · exact ⟨ht2, Or.inl hi2⟩

/-- An event keeps `totalVideos` and either keeps `currentVideoIndex` or moves it to the next
index, which is then below `totalVideos`. -/
theorem step_position (s : State) (ev : Event) (now : Int) :
    (step s ev now).totalVideos = s.totalVideos
      ∧ ((step s ev now).currentVideoIndex = s.currentVideoIndex
        ∨ ((step s ev now).currentVideoIndex = s.currentVideoIndex + 1
          ∧ s.currentVideoIndex + 1 < s.totalVideos)) := by
  have same : ∀ r, SameSession s r →
      r.totalVideos = s.totalVideos
        ∧ (r.currentVideoIndex = s.currentVideoIndex
          ∨ (r.currentVideoIndex = s.currentVideoIndex + 1
            ∧ s.currentVideoIndex + 1 < s.totalVideos)) :=
    fun r h => ⟨h.2, Or.inl h.1⟩
  cases ev with
  | mouseDown target e lay =>
    apply same
    simp only [step, handleMouseDown]
    cases target with
    | handle h boxId => exact ⟨rfl, rfl⟩
    | control => exact ⟨rfl, rfl⟩
    | other => exact startDrawing_same s e lay now
  | mouseMove e lay =>
    apply same
    simp only [step, handleMouseMove]
    split
    · exact updateDrawing_same s e lay
    · split
      · exact updateResize_same s e lay
      · exact ⟨rfl, rfl⟩
  | mouseUp lay => exact same _ (handleMouseUp_same s lay)
  | mouseLeave lay =>
    apply same
    simp only [step, handleMouseLeave]
    split
    · exact handleMouseUp_same s lay
    · exact ⟨rfl, rfl⟩
  | clickPlay => exact same _ (play_same s now)
  | clickPause => exact same _ (pause_same s now)
  | clickSubmit outcome => exact submitAnnotation_advance s now outcome
  | scrubber value => exact same _ ⟨rfl, rfl⟩
  | clickSpeed speed => exact same _ (setPlaybackSpeed_same s speed now)
  | keyDown e => exact same _ (handleKeyDown_same s e now)
  | relayout lay => exact same _ (repositionEach_same lay _ s)
  | clickRating boxId rating => exact same _ (setBoxRating_same s boxId _)
  | clickDelete box =>
    apply same
    simp only [step]
    split
    · exact deleteBox_same s box
    · exact ⟨rfl, rfl⟩
  | interval handle =>
    apply same
    simp only [step]
    split
    · exact tick_same s
    · exact ⟨rfl, rfl⟩

/-- Along any sequence of events `totalVideos` stays what it was and `currentVideoIndex`
never decreases and stays below `totalVideos` once it is. -/
theorem reachable_position (s0 s : State) (h : Reachable s0 s)
    (h0 : s0.currentVideoIndex < s0.totalVideos) :
    s.totalVideos = s0.totalVideos ∧ s0.currentVideoIndex ≤ s.currentVideoIndex
      ∧ s.currentVideoIndex < s.totalVideos := by
  induction h with
  | start => exact ⟨rfl, Nat.le_refl _, h0⟩
  | next s ev now _ ih =>
    obtain ⟨h1, h2, h3⟩ := ih
    obtain ⟨ht, hc⟩ := step_position s ev now
    rcases hc with hc | ⟨hc, hlt⟩
    · exact ⟨by rw [ht, h1], by rw [hc]; exact h2, by rw [hc, ht]; exact h3⟩
    · exact ⟨by rw [ht, h1], by rw [hc]; omega, by rw [hc, ht]; exact hlt⟩

/-! ## The invariant of the collection holds in every reachable state -/

theorem sameBoxes_trans {s r q : State} (h1 : SameBoxes s r) (h2 : SameBoxes r q) :
    SameBoxes s q :=
  ⟨h2.1.trans h1.1, h2.2.1.trans h1.2.1, h2.2.2.trans h1.2.2⟩

theorem wellFormed_of_sameBoxes (s r : State) (h : SameBoxes s r) (hs : s.WellFormed) :
    r.WellFormed :=
  wellFormed_of_same s r hs h.2.1 (Nat.le_of_eq h.2.2.symm)
    (fun x _ => by rw [h.1]; exact ⟨rfl, rfl⟩)

theorem pause_sameBoxes (s : State) (now : Int) : SameBoxes s (pause s now) :=
  ⟨pause_heap s now, pause_selectionBoxes s now, pause_nextRef s now⟩

theorem play_sameBoxes (s : State) (now : Int) : SameBoxes s (play s now) := by
  unfold play SameBoxes
  by_cases hw : s.hasWatchedVideo <;> by_cases hp : truthy s.videoPlayStartTime <;> simp [hw, hp]

theorem tick_sameBoxes (s : State) : SameBoxes s (tick s) := by
  unfold tick SameBoxes
  dsimp only
  split <;> exact ⟨rfl, rfl, rfl⟩

theorem setPlaybackSpeed_sameBoxes (s : State) (speed : ℚ) (now : Int) :
    SameBoxes s (setPlaybackSpeed s speed now) := by
  unfold setPlaybackSpeed
  dsimp only
  split
  · exact sameBoxes_trans
      (@sameBoxes_trans s { s with playbackSpeed := speed } _ ⟨rfl, rfl, rfl⟩
        (pause_sameBoxes _ now))
      (play_sameBoxes _ now)
  · exact ⟨rfl, rfl, rfl⟩

theorem nextFrame_sameBoxes (s : State) (now : Int) : SameBoxes s (nextFrame s now) := by
  unfold nextFrame
  by_cases hp : s.isPlaying
  · simp only [hp, if_true]; exact sameBoxes_trans (pause_sameBoxes s now) ⟨rfl, rfl, rfl⟩
  · simp only [hp]; exact ⟨rfl, rfl, rfl⟩

theorem previousFrame_sameBoxes (s : State) (now : Int) :
    SameBoxes s (previousFrame s now) := by
  unfold previousFrame
  by_cases hp : s.isPlaying
  · simp only [hp, if_true]; exact sameBoxes_trans (pause_sameBoxes s now) ⟨rfl, rfl, rfl⟩
  · simp only [hp]; exact ⟨rfl, rfl, rfl⟩

theorem skipFrames_sameBoxes (s : State) (count now : Int) :
    SameBoxes s (skipFrames s count now) := by
  unfold skipFrames
  by_cases hp : s.isPlaying
  · simp only [hp, if_true]; exact sameBoxes_trans (pause_sameBoxes s now) ⟨rfl, rfl, rfl⟩
  · simp only [hp]; exact ⟨rfl, rfl, rfl⟩

theorem handleKeyDown_sameBoxes (s : State) (e : KeyEvent) (now : Int) :
    SameBoxes s (handleKeyDown s e now) := by
  unfold handleKeyDown
  split
  · exact ⟨rfl, rfl, rfl⟩
  · split
    · split
      · exact pause_sameBoxes s now
      · exact play_sameBoxes s now
    · dsimp only
      split
      · exact sameBoxes_trans ⟨rfl, rfl, rfl⟩ (skipFrames_sameBoxes _ _ now)
      · exact sameBoxes_trans ⟨rfl, rfl, rfl⟩ (nextFrame_sameBoxes _ now)
    · dsimp only
      split
      · exact sameBoxes_trans ⟨rfl, rfl, rfl⟩ (skipFrames_sameBoxes _ _ now)
      · exact sameBoxes_trans ⟨rfl, rfl, rfl⟩ (previousFrame_sameBoxes _ now)
    · exact ⟨rfl, rfl, rfl⟩

theorem updateResize_wellFormed (s : State) (e : MouseEvent) (lay : Layout)
    (h : s.WellFormed) : (updateResize s e lay).WellFormed := by
  obtain ⟨hsel, hkeep⟩ := updateResize_keeps s e lay
  have hnext : (updateResize s e lay).nextRef = s.nextRef := by
    unfold updateResize
    split
    · rfl
    · split
      · rfl
      · dsimp only; split <;> rfl
  exact wellFormed_of_same s _ h hsel (Nat.le_of_eq hnext.symm)
    (fun r _ => ⟨(hkeep r).1, (hkeep r).2.2⟩)

theorem repositionEach_wellFormed (lay : Layout) (l : List Ref) :
    ∀ s : State, s.WellFormed → (repositionEach lay l s).WellFormed := by
  induction l with
  | nil => intro s h; exact h
  | cons box rest ih =>
    intro s h
    rw [repositionEach]
    apply ih
    refine wellFormed_of_same s _ h rfl (Nat.le_refl _) ?_
    intro r _
    by_cases hr : r = box
    · subst hr; rw [updateBoxPosition_heap_same]; exact ⟨rfl, rfl⟩
    · rw [updateBoxPosition_heap_other _ _ _ _ hr]; exact ⟨rfl, rfl⟩

theorem resetVideoState_sameBoxes (s : State) (now : Int) :
    SameBoxes s (resetVideoState s now) := by
  unfold resetVideoState SameBoxes
  dsimp only
  split <;> simp

theorem loadVideo_wellFormed (s : State) (index : Nat) (now : Int) (h : s.WellFormed) :
    (loadVideo s index now).state.WellFormed := by
  unfold loadVideo
  split
  · exact h
  · dsimp only
    split
    · exact wellFormed_of_sameBoxes s _ ⟨rfl, rfl, rfl⟩ h
    · exact wellFormed_of_sameBoxes _ _ (resetVideoState_sameBoxes _ now)
        (clearAllBoxes_wellFormed _)

theorem submitAnnotation_wellFormed (s : State) (now : Int) (outcome : FetchOutcome)
    (h : s.WellFormed) : ( submitAnnotation s now outcome).state.WellFormed := by
  unfold submitAnnotation
  split
  · exact wellFormed_of_sameBoxes s _ ⟨rfl, rfl, rfl⟩ h
  · obtain ⟨s1, hs1, h1⟩ :
        ∃ s1, (if s.isPlaying then pause s now else s) = s1 ∧ s1.WellFormed :=
      ⟨_, rfl, by split; exact wellFormed_of_sameBoxes s _ (pause_sameBoxes s now) h; exact h⟩
    simp only [hs1]
    cases hv : getCurrentVideo s1 with
    | none => exact h1
    | some video =>
      dsimp only
      have h2 : ( saveAnnotation s1 (recordOf s1 video now) outcome).WellFormed := by
        refine wellFormed_of_sameBoxes s1 _ ?_ h1
        unfold saveAnnotation
        cases outcome <;> exact ⟨rfl, rfl, rfl⟩
      split
      · have h3 := loadVideo_wellFormed _
          (( saveAnnotation s1 (recordOf s1 video now) outcome).currentVideoIndex + 1) now h2
        cases hl : loadVideo ( saveAnnotation s1 (recordOf s1 video now) outcome)
            (( saveAnnotation s1 (recordOf s1 video now) outcome).currentVideoIndex + 1) now with
        | ok r =>
          rw [hl] at h3
          exact h3
        | threw r =>
          rw [hl] at h3
          exact wellFormed_of_sameBoxes r _ ⟨rfl, rfl, rfl⟩ h3
      · exact wellFormed_of_sameBoxes ( saveAnnotation s1 (recordOf s1 video now) outcome) _
          ⟨rfl, rfl, rfl⟩ h2

theorem handleMouseUp_wellFormed (s : State) (lay : Layout) (h : s.WellFormed) :
    (handleMouseUp s lay).WellFormed := by
  unfold handleMouseUp
  split
  · exact endDrawing_wellFormed s lay h
  · split
    · exact wellFormed_of_sameBoxes s _ ⟨rfl, rfl, rfl⟩ h
    · exact h

/-- Every event keeps the invariant of the collection. -/
theorem step_wellFormed (s : State) (ev : Event) (now : Int) (h : s.WellFormed) :
    (step s ev now).WellFormed := by
  cases ev with
  | mouseDown target e lay =>
    simp only [step, handleMouseDown]
    cases target with
    | handle hd boxId => exact wellFormed_of_sameBoxes s _ ⟨rfl, rfl, rfl⟩ h
    | control => exact h
    | other => exact startDrawing_wellFormed s e lay now h
  | mouseMove e lay =>
    simp only [step, handleMouseMove]
    split
    · exact updateDrawing_wellFormed s e lay h
    · split
      · exact updateResize_wellFormed s e lay h
      · exact h
  | mouseUp lay => exact handleMouseUp_wellFormed s lay h
  | mouseLeave lay =>
    simp only [step, handleMouseLeave]
    split
    · exact handleMouseUp_wellFormed s lay h
    · exact h
  | clickPlay => exact wellFormed_of_sameBoxes s _ (play_sameBoxes s now) h
  | clickPause => exact wellFormed_of_sameBoxes s _ (pause_sameBoxes s now) h
  | clickSubmit outcome => exact submitAnnotation_wellFormed s now outcome h
  | scrubber value => exact wellFormed_of_sameBoxes s _ ⟨rfl, rfl, rfl⟩ h
  | clickSpeed speed => exact wellFormed_of_sameBoxes s _ (setPlaybackSpeed_sameBoxes s speed now) h
  | keyDown e => exact wellFormed_of_sameBoxes s _ (handleKeyDown_sameBoxes s e now) h
  | relayout lay => exact repositionEach_wellFormed lay _ s h
  | clickRating boxId rating =>
    exact setBoxRating_wellFormed s boxId _ ⟨by omega, by have := rating.isLt; omega⟩ h
  | clickDelete box =>
    simp only [step]
    split
    · exact deleteBox_wellFormed s box h
    · exact h
  | interval handle =>
    simp only [step]
    split
    · exact wellFormed_of_sameBoxes s _ (tick_sameBoxes s) h
    · exact h

/-- The invariant of the collection holds in every state reachable from a state in which it
holds, in particular from the state the constructor builds. -/
theorem reachable_wellFormed (s0 s : State) (h : Reachable s0 s) (h0 : s0.WellFormed) :
    s.WellFormed := by
  induction h with
  | start => exact h0
  | next s ev now _ ih => exact step_wellFormed s ev now ih

/-- The part of C12 that holds: from a state with `isPlaying = true`, each of `nextFrame`,
`previousFrame` and `skipFrames` ends paused (not playing, elapsed time added to
`totalWatchTime` and the timestamp cleared, the play interval cancelled) and applies the new
frame, clamped, to the frame it found. -/
theorem frame_steps_pause (s : State) (now count : Int) (hp : s.isPlaying = true) :
    (PausedFrom s (nextFrame s now) now
        ∧ (nextFrame s now).currentFrame = min (s.currentFrame + 1) (s.totalFrames - 1))
      ∧ (PausedFrom s (previousFrame s now) now
        ∧ (previousFrame s now).currentFrame = max (s.currentFrame - 1) 0)
      ∧ (PausedFrom s (skipFrames s count now) now
        ∧ (skipFrames s count now).currentFrame
            = max 0 (min (s.currentFrame + count) (s.totalFrames - 1))) := by
  refine ⟨⟨?_, ?_⟩, ⟨?_, ?_⟩, ⟨?_, ?_⟩⟩
  · simp only [nextFrame, hp, if_true]
    exact pausedFrom_setFrame s _ now _ (pause_pausedFrom s now)
  · simp [nextFrame, hp]
  · simp only [previousFrame, hp, if_true]
    exact pausedFrom_setFrame s _ now _ (pause_pausedFrom s now)
  · simp [previousFrame, hp]
  · simp only [skipFrames, hp, if_true]
    exact pausedFrom_setFrame s _ now _ (pause_pausedFrom s now)
  · simp [skipFrames, hp]

/-- An instance of `frame_steps_pause`: `nextFrame` at time 8500 while `twoBoxesPlaying`
plays since 6000. -/
theorem frame_steps_pause_example :
    twoBoxesPlaying.isPlaying = true
      ∧ PausedFrom twoBoxesPlaying (nextFrame twoBoxesPlaying 8500) 8500 :=
  ⟨by decide!, (frame_steps_pause twoBoxesPlaying 8500 5 (by decide!)).1.1⟩

/-! ## Claims -/

/-- C1, evaluated. `oneBoxRated` is ready, on clip 0 of 2, with one rated box. When the
`fetch` of `saveAnnotation` is rejected, `submitAnnotation` logs the error to the console,
shows no alert, and goes on as after a success: the tool is on clip 1 and the collection is
empty. On the last clip (`lastClipRated`) it navigates to `/thank_you`. -/
theorem submit_advances_after_failed_save :
    oneBoxRated.currentVideoIndex = 0
      ∧ oneBoxRated.boxes.map (fun b => (b.rect, b.confidence))
          = [((.fin 100, .fin 100, .fin 500, .fin 400), some 4)]
      ∧ ( submitAnnotation oneBoxRated 2000 .rejected).state.currentVideoIndex = 1
      ∧ ( submitAnnotation oneBoxRated 2000 .rejected).state.boxes = []
      ∧ ( submitAnnotation oneBoxRated 2000 .rejected).state.alerts = []
      ∧ ( submitAnnotation oneBoxRated 2000 .rejected).state.console
          = ["Error saving annotation:"]
      ∧ ( submitAnnotation lastClipRated 2000 .rejected).state.location = some "/thank_you" := by
  refine ⟨by decide!, by decide!, by decide!, by decide!, by decide!, by decide!, by decide!⟩

/-- C2. A submission while some box has no confidence is rejected locally:
`submitAnnotation` returns normally with the state it was given, except for one more alert;
in particular nothing is posted to the backend (`sent` is unchanged) and the box collection,
the playback fields and `currentVideoIndex` are the ones before the call. -/
theorem submit_rejected_when_unrated (s : State) (now : Int) (outcome : FetchOutcome)
    (h : ∃ b ∈ s.boxes, b.confidence = none) :
    submitAnnotation s now outcome
        = .ok { s with alerts := s.alerts ++
            ["Please rate all groups before submitting, or delete boxes to skip this video"] }
      ∧ ( submitAnnotation s now outcome).state.sent = s.sent
      ∧ ( submitAnnotation s now outcome).state.boxes = s.boxes
      ∧ ( submitAnnotation s now outcome).state.currentVideoIndex = s.currentVideoIndex
      ∧ ( submitAnnotation s now outcome).state.isPlaying = s.isPlaying
      ∧ ( submitAnnotation s now outcome).state.currentFrame = s.currentFrame
      ∧ ( submitAnnotation s now outcome).state.hasWatchedVideo = s.hasWatchedVideo
      ∧ ( submitAnnotation s now outcome).state.videoPlayStartTime = s.videoPlayStartTime
      ∧ ( submitAnnotation s now outcome).state.totalWatchTime = s.totalWatchTime
      ∧ ( submitAnnotation s now outcome).state.playbackSpeed = s.playbackSpeed
      ∧ ( submitAnnotation s now outcome).state.timers = s.timers := by
  have hr := allRated_eq_false_of_unrated s h
  have hlen : s.selectionBoxes.length > 0 := by
    obtain ⟨b, hb, _⟩ := h
    simp only [boxes_eq, List.mem_map] at hb
    obtain ⟨r, hr, _⟩ := hb
    exact List.length_pos_of_mem hr
  have key : submitAnnotation s now outcome
      = .ok { s with alerts := s.alerts ++
          ["Please rate all groups before submitting, or delete boxes to skip this video"] } := by
    unfold submitAnnotation
    rw [if_pos ⟨hlen, hr⟩]
  rw [key]
  exact ⟨rfl, rfl, rfl, rfl, rfl, rfl, rfl, rfl, rfl, rfl, rfl⟩

/-- C2, at a concrete input: submitting `oneBox`, whose only box is not rated. -/
theorem submit_rejected_when_unrated_witness :
    (∃ b ∈ oneBox.boxes, b.confidence = none)
      ∧ ( submitAnnotation oneBox 2000 .rejected).state.sent = oneBox.sent :=
  ⟨by decide!, (submit_rejected_when_unrated oneBox 2000 .rejected (by decide!)).2.1⟩

/-- C3. On a collection whose set confidences come from the five rating buttons,
`checkSubmitReady` enables the submit button exactly when the collection is empty or every
box has a confidence in {1,...,5}; and when `t` holds the boxes of a non-empty, fully rated `s`
followed by one box without confidence, `s` is ready and `t` is not. -/
theorem checkSubmitReady_ready_iff (s t : State) (u : Box) (hvalid : s.RatingsValid) :
    ((checkSubmitReady s).submitDisabled = false ↔
        (s.boxes = [] ∨
          ∀ b ∈ s.boxes, ∃ c ∈ ({1, 2, 3, 4, 5} : Finset ℕ), b.confidence = some c))
      ∧ (s.boxes ≠ [] →
          (∀ b ∈ s.boxes, ∃ c ∈ ({1, 2, 3, 4, 5} : Finset ℕ), b.confidence = some c) →
          u.confidence = none → t.boxes = s.boxes ++ [u] →
          (checkSubmitReady s).submitDisabled = false
            ∧ (checkSubmitReady t).submitDisabled = true) := by
  have ready_iff : ∀ x : State, (checkSubmitReady x).submitDisabled = false ↔
      (x.boxes = [] ∨ ∀ b ∈ x.boxes, b.confidence ≠ none) := by
    intro x
    unfold checkSubmitReady
    by_cases hlen : x.selectionBoxes.length = 0
    · have : x.selectionBoxes = [] := List.length_eq_zero.mp hlen
      simp [this]
    · have hne : x.selectionBoxes ≠ [] := fun h => hlen (by simp [h])
      rw [if_neg hlen]
      dsimp only
      rw [Bool.not_eq_false', allRated_iff]
      simp [hne]
  have rated_iff : (∀ b ∈ s.boxes, b.confidence ≠ none) ↔
      ∀ b ∈ s.boxes, ∃ c ∈ ({1, 2, 3, 4, 5} : Finset ℕ), b.confidence = some c := by
    constructor
    · intro h b hb
      obtain ⟨c, hc⟩ := Option.ne_none_iff_exists'.mp (h b hb)
      have hr := hvalid b hb c (by simp [hc])
      refine ⟨c, ?_, hc⟩
      simp only [Finset.mem_insert, Finset.mem_singleton]
      omega
    · intro h b hb
      obtain ⟨c, _, hc⟩ := h b hb
      simp [hc]
  refine ⟨by rw [ready_iff, rated_iff], ?_⟩
  intro hne hall hu ht
  refine ⟨(ready_iff s).mpr (Or.inr (rated_iff.mpr hall)), ?_⟩
  have hnot : ¬ (checkSubmitReady t).submitDisabled = false := by
    rw [ready_iff, ht]
    intro h
    rcases h with h | h
    · simp at h
    · exact h u (by simp) hu
  simpa using hnot

/-- C3, at a concrete input: `oneBoxRated` is ready, and `twoBoxes`, which adds one box
without confidence to it, is not. -/
theorem checkSubmitReady_ready_iff_witness :
    oneBoxRated.RatingsValid
      ∧ (checkSubmitReady oneBoxRated).submitDisabled = false
      ∧ (checkSubmitReady twoBoxes).submitDisabled = true :=
  ⟨by unfold State.RatingsValid; decide!,
    (checkSubmitReady_ready_iff oneBoxRated twoBoxes (twoBoxes.heap 3)
      (by unfold State.RatingsValid; decide!)).2
      (by decide!) (by decide!) (by decide!) (by decide!)⟩

/-- C4. A drag that starts at the logical point `p = (logicalX e0 lay0, logicalY e0 lay0)`,
moves any number of times, makes its last move at the logical point
`q = (logicalX e1 lay1, logicalY e1 lay1)` and commits a box (the collection is not the one
before the drag) adds exactly one box, stored last, with `startX = min p.x q.x`,
`endX = max p.x q.x`, `startY = min p.y q.y`, `endY = max p.y q.y`, so `startX <= endX` and
`startY <= endY`; and the drag from `q` to `p`, from any state, stores a box with the same
four coordinates. -/
theorem drag_commits_normalized (s s' : State) (e0 e1 : MouseEvent)
    (lay0 lay1 up up' : Layout) (now now' : Int) (moves moves' : List (MouseEvent × Layout))
    (h0 : lay0.image.width ≠ 0 ∧ lay0.image.height ≠ 0)
    (h1 : lay1.image.width ≠ 0 ∧ lay1.image.height ≠ 0)
    (hcommit : (drag s (e0, lay0) now (moves ++ [(e1, lay1)]) up).selectionBoxes
      ≠ s.selectionBoxes) :
    ∃ b b',
      (drag s (e0, lay0) now (moves ++ [(e1, lay1)]) up).boxes.getLast? = some b
        ∧ (drag s (e0, lay0) now (moves ++ [(e1, lay1)]) up).boxes.length = s.boxes.length + 1
        ∧ b.startX = .fin (min (logicalX e0 lay0) (logicalX e1 lay1))
        ∧ b.endX = .fin (max (logicalX e0 lay0) (logicalX e1 lay1))
        ∧ b.startY = .fin (min (logicalY e0 lay0) (logicalY e1 lay1))
        ∧ b.endY = .fin (max (logicalY e0 lay0) (logicalY e1 lay1))
        ∧ Num.le b.startX b.endX = true
        ∧ Num.le b.startY b.endY = true
        ∧ (drag s' (e1, lay1) now' (moves' ++ [(e0, lay0)]) up').boxes.getLast? = some b'
        ∧ b'.rect = b.rect := by
  obtain ⟨hsmall, hbig⟩ := drag_result s e0 e1 lay0 lay1 up now moves h0 h1
  have hnot : ¬ (|logicalX e1 lay1 - logicalX e0 lay0| < 10
      ∨ |logicalY e1 lay1 - logicalY e0 lay0| < 10) := fun h => hcommit (hsmall h)
  obtain ⟨hsel, st, hst⟩ := hbig hnot
  have hnot' : ¬ (|logicalX e0 lay0 - logicalX e1 lay1| < 10
      ∨ |logicalY e0 lay0 - logicalY e1 lay1| < 10) := by
    rw [abs_sub_comm (logicalX e0 lay0), abs_sub_comm (logicalY e0 lay0)]
    exact hnot
  obtain ⟨hsel', st', hst'⟩ := (drag_result s' e1 e0 lay1 lay0 up' now' moves' h1 h0).2 hnot'
  refine ⟨(drag s (e0, lay0) now (moves ++ [(e1, lay1)]) up).heap (s.nextRef + 1),
    (drag s' (e1, lay1) now' (moves' ++ [(e0, lay0)]) up').heap (s'.nextRef + 1),
    ?_, ?_, ?_, ?_, ?_, ?_, ?_, ?_, ?_, ?_⟩
  · rw [boxes_eq, hsel, List.map_append, List.map_singleton, List.getLast?_concat]
  · simp [hsel]
  · rw [hst]
  · rw [hst]
  · rw [hst]
  · rw [hst]
  · rw [hst]; simp
  · rw [hst]; simp
  · rw [boxes_eq, hsel', List.map_append, List.map_singleton, List.getLast?_concat]
  · rw [hst, hst']; simp [Box.rect, min_comm, max_comm]

/-- C4, at a concrete input: the drag of `oneBox`, from (100,100) to (500,400). -/
theorem drag_commits_normalized_witness :
    (drag twoClips ({ clientX := 100, clientY := 100 }, fullLayout) 1000
        ([] ++ [({ clientX := 500, clientY := 400 }, fullLayout)]) fullLayout).selectionBoxes
      ≠ twoClips.selectionBoxes
    ∧ ∃ b b',
      (drag twoClips ({ clientX := 100, clientY := 100 }, fullLayout) 1000
        ([] ++ [({ clientX := 500, clientY := 400 }, fullLayout)]) fullLayout).boxes.getLast?
          = some b
      ∧ Num.le b.startX b.endX = true ∧ Num.le b.startY b.endY = true
      ∧ (drag oneBox ({ clientX := 500, clientY := 400 }, fullLayout) 3000
        ([] ++ [({ clientX := 100, clientY := 100 }, fullLayout)]) fullLayout).boxes.getLast?
          = some b'
      ∧ b'.rect = b.rect :=
  ⟨by decide!,
    let ⟨b, b', h1, _, _, _, _, _, h7, h8, h9, h10⟩ :=
      drag_commits_normalized twoClips oneBox { clientX := 100, clientY := 100 }
        { clientX := 500, clientY := 400 } fullLayout fullLayout fullLayout fullLayout 1000 3000
        [] [] (by decide!) (by decide!) (by decide!)
    ⟨b, b', h1, h7, h8, h9, h10⟩⟩

/-- C5. With a drafting box `d` (the object behind `currentBox` while `isDrawing`),
`endDrawing` leaves the collection as it was when `|d.endX - d.startX| < 10` or
`|d.endY - d.startY| < 10`; otherwise it appends one box as the last element, which has the
id of `d`, the coordinates of `d` put in order, and no confidence. -/
theorem endDrawing_min_size (s : State) (lay : Layout) (cur : Ref)
    (hd : s.isDrawing = true) (hc : s.currentBox = some cur) (hall : s.Allocated) :
    ((Num.lt (Num.abs (Num.sub (s.heap cur).endX (s.heap cur).startX)) (.fin 10) = true
        ∨ Num.lt (Num.abs (Num.sub (s.heap cur).endY (s.heap cur).startY)) (.fin 10) = true) →
        (endDrawing s lay).selectionBoxes = s.selectionBoxes
          ∧ (endDrawing s lay).boxes = s.boxes)
      ∧ (¬ (Num.lt (Num.abs (Num.sub (s.heap cur).endX (s.heap cur).startX)) (.fin 10) = true
          ∨ Num.lt (Num.abs (Num.sub (s.heap cur).endY (s.heap cur).startY)) (.fin 10) = true) →
        ∃ b, (endDrawing s lay).boxes = s.boxes ++ [b]
          ∧ b.id = (s.heap cur).id
          ∧ b.startX = Num.min (s.heap cur).startX (s.heap cur).endX
          ∧ b.startY = Num.min (s.heap cur).startY (s.heap cur).endY
          ∧ b.endX = Num.max (s.heap cur).startX (s.heap cur).endX
          ∧ b.endY = Num.max (s.heap cur).startY (s.heap cur).endY
          ∧ b.confidence = none
          ∧ b.label = some (s.boxes.length + 1)) := by
  constructor
  · intro hsmall
    obtain ⟨hsel, hframe⟩ := endDrawing_discard s lay cur hd hc (by simpa using hsmall)
    refine ⟨hsel, ?_⟩
    rw [boxes_eq, hsel]
    exact boxes_eq_of_frame s _ s.nextRef hall hframe
  · intro hbig
    obtain ⟨hsel, hframe, st, hst⟩ := endDrawing_commit s lay cur hd hc (by simpa using hbig)
    refine ⟨(endDrawing s lay).heap s.nextRef, ?_, ?_⟩
    · rw [boxes_eq, hsel, List.map_append, List.map_singleton,
        boxes_eq_of_frame s _ s.nextRef hall hframe]
      rfl
    · rw [hst]; simp

/-- C5, at a concrete input: `midDrag`, a drag under way from (100,100) to (500,400). -/
theorem endDrawing_min_size_witness :
    midDrag.isDrawing = true ∧ midDrag.currentBox = some 0 ∧ midDrag.Allocated
      ∧ ∃ b, (endDrawing midDrag fullLayout).boxes = midDrag.boxes ++ [b] :=
  ⟨by decide, by decide, by unfold State.Allocated; decide,
    ((endDrawing_min_size midDrag fullLayout 0 (by decide) (by decide)
      (by unfold State.Allocated; decide)).2 (by decide!)).elim fun b h => ⟨b, h.1⟩⟩

/-- C6. From a ready state with boxes `b_0 .. b_(n-1)` and a current video, `submitAnnotation`
posts exactly one record; its `numberOfGroups` is `n`, its `groups` has length `n`, and the
entry at index `i` is `{groupId: i+1, bbox: [round(min(startX,endX)), round(min(startY,endY)),
round(max(startX,endX)), round(max(startY,endY))], confidence: b_i.confidence}`. For
`oneBoxRated` (50 frames, one box drawn from logical (100,100) to (500,400) and rated 4) the
record has `numberOfGroups = 1` and `groups = [{groupId:1, bbox:[100,100,500,400],
confidence:4}]`. -/
theorem submit_record_groups (s : State) (now : Int) (outcome : FetchOutcome) (video : Video)
    (hready : (checkSubmitReady s).submitDisabled = false)
    (hvideo : getCurrentVideo s = some video) :
    (∃ a : Annotation, ( submitAnnotation s now outcome).state.sent = s.sent ++ [a]
      ∧ a.numberOfGroups = s.boxes.length
      ∧ a.groups.length = s.boxes.length
      ∧ ∀ i b, s.boxes[i]? = some b →
          a.groups[i]? = some
            ({ groupId := i + 1
               bbox := [Num.round (Num.min b.startX b.endX), Num.round (Num.min b.startY b.endY),
                 Num.round (Num.max b.startX b.endX), Num.round (Num.max b.startY b.endY)]
               confidence := b.confidence } : Group))
      ∧ oneBoxRated.totalFrames = 50
      ∧ ( submitAnnotation oneBoxRated 2000 (.fulfilled 200)).state.sent.map
            (fun a => (a.numberOfGroups, a.groups))
          = [(1, [{ groupId := 1, bbox := [.fin 100, .fin 100, .fin 500, .fin 400],
                    confidence := some 4 }])] := by
  refine ⟨?_, by decide!, by decide!⟩
  obtain ⟨a, hsent, hn, hg⟩ := submitAnnotation_sent s now outcome video hready hvideo
  refine ⟨a, hsent, by simp [hn], by simp [hg, groupsOf], ?_⟩
  intro i b hb
  rw [boxes_eq, List.getElem?_map] at hb
  cases hr : s.selectionBoxes[i]? with
  | none => simp [hr] at hb
  | some r =>
    simp only [hr, Option.map_some', Option.some.injEq] at hb
    subst hb
    rw [hg]
    simp [groupsOf, hr]

/-- C6, at a concrete input: the record posted from `oneBoxRated`. -/
theorem submit_record_groups_witness :
    (checkSubmitReady oneBoxRated).submitDisabled = false
      ∧ ∃ a : Annotation,
          ( submitAnnotation oneBoxRated 2000 .rejected).state.sent = oneBoxRated.sent ++ [a]
            ∧ a.numberOfGroups = oneBoxRated.boxes.length :=
  ⟨by decide!,
    let ⟨a, h1, h2, _⟩ := (submit_record_groups oneBoxRated 2000 .rejected
      { index := 0, folder := "clip_a" } (by decide!) (by decide!)).1
    ⟨a, h1, h2⟩⟩

/-- C7, evaluated. The box of `oneBoxRated` is stored as (100,100,500,400) with confidence 4.
Dragging its top-left handle to the logical point (700,600), beyond the bottom-right corner,
and releasing leaves it stored as (700,600,500,400): `startX > endX` and `startY > endY`,
while `endDrawing` would have stored (500,400,700,600). The confidence is still 4. The box is
now shown from (500,400) to (700,600); dragging the handle at its top-left corner to (450,350)
writes `startX` and `startY` again, so the stored box becomes (450,350,500,400) and the corner
at (700,600) is lost. -/
theorem resize_leaves_rect_unordered :
    oneBoxRated.boxes.map (fun b => (b.rect, b.confidence))
        = [((.fin 100, .fin 100, .fin 500, .fin 400), some 4)]
      ∧ (resize oneBoxRated .tl 1000 [({ clientX := 700, clientY := 600 }, fullLayout)]).boxes.map
          (fun b => (b.rect, b.confidence))
        = [((.fin 700, .fin 600, .fin 500, .fin 400), some 4)]
      ∧ Num.le (.fin 700) (.fin 500) = false ∧ Num.le (.fin 600) (.fin 400) = false
      ∧ (resize
          (resize oneBoxRated .tl 1000 [({ clientX := 700, clientY := 600 }, fullLayout)])
          .tl 1000 [({ clientX := 450, clientY := 350 }, fullLayout)]).boxes.map Box.rect
        = [(.fin 450, .fin 350, .fin 500, .fin 400)] := by
  refine ⟨by decide!, by decide!, by decide!, by decide!, by decide!⟩

/-- C8, evaluated. With an image of zero width and height, `startDrawing` changes nothing,
but `updateDrawing` overwrites the end point of the drafting box (here with `Infinity`, the
value of `300 / 0 * 1920`), after which `endDrawing` commits a box with infinite coordinates;
and `updateResize` overwrites the corner of the box being resized, a member of the
collection. -/
theorem zero_layout_moves_are_not_noops :
    startDrawing twoClips { clientX := 300, clientY := 200 } zeroLayout 1000 = twoClips
      ∧ (midDrag.heap 0).rect = (.fin 100, .fin 100, .fin 500, .fin 400)
      ∧ ((updateDrawing midDrag { clientX := 300, clientY := 200 } zeroLayout).heap 0).rect
          = (.fin 100, .fin 100, .posInf, .posInf)
      ∧ (endDrawing (updateDrawing midDrag { clientX := 300, clientY := 200 } zeroLayout)
            fullLayout).boxes.map Box.rect
          = [(.fin 100, .fin 100, .posInf, .posInf)]
      ∧ (startResize oneBoxRated .br 1000).boxes.map Box.rect
          = [(.fin 100, .fin 100, .fin 500, .fin 400)]
      ∧ (updateResize (startResize oneBoxRated .br 1000) { clientX := 300, clientY := 200 }
            zeroLayout).boxes.map Box.rect
          = [(.fin 100, .fin 100, .posInf, .posInf)] := by
  refine ⟨?_, by decide!, by decide!, by decide!, by decide!, by decide!⟩
  simp [startDrawing, zeroLayout]

/-- C9. In a collection with pairwise distinct ids whose labels show the positions,
`deleteBox` of the box at position `k` removes that element and keeps the order of the
others: a box formerly at position `j > k` is now at position `j - 1`, unchanged but for its
label, which reads `Group j`; a box at a position below `k` is where it was, label included;
and no box of the new collection has the id of the deleted one. -/
theorem deleteBox_renumbers (s : State) (k : Nat) (box : Ref)
    (hids : (s.boxes.map Box.id).Nodup) (hk : s.selectionBoxes[k]? = some box)
    (hlab : s.Labelled) :
    (deleteBox s box).selectionBoxes = s.selectionBoxes.eraseIdx k
      ∧ (deleteBox s box).boxes.length + 1 = s.boxes.length
      ∧ (∀ j b, k < j → s.boxes[j]? = some b →
          (deleteBox s box).boxes[j - 1]? = some { b with label := some j })
      ∧ (∀ i b, i < k → s.boxes[i]? = some b → (deleteBox s box).boxes[i]? = some b)
      ∧ (∀ b ∈ (deleteBox s box).boxes, b.id ≠ (s.heap box).id) := by
  have hids' : (s.selectionBoxes.map fun r => (s.heap r).id).Nodup := by
    simpa [List.map_map, Function.comp] using hids
  have hnd : s.selectionBoxes.Nodup := List.Nodup.of_map _ hids'
  obtain ⟨hklt, hkget⟩ := List.getElem?_eq_some.mp hk
  have hidx : s.selectionBoxes.indexOf box = k := by
    rw [← hkget]; exact List.indexOf_getElem hnd k hklt
  obtain ⟨h1, h2, h3⟩ := relabelFrom_spec (s.selectionBoxes.eraseIdx k) 0
    { s with selectionBoxes := s.selectionBoxes.eraseIdx k } (hnd.eraseIdx k)
  have hsel : (deleteBox s box).selectionBoxes = s.selectionBoxes.eraseIdx k := by
    unfold deleteBox updateBoxLabels
    simp only [hidx, hklt, if_true, checkSubmitReady_selectionBoxes, h1]
  have hheap : (deleteBox s box).heap
      = (relabelFrom 0 (s.selectionBoxes.eraseIdx k)
          { s with selectionBoxes := s.selectionBoxes.eraseIdx k }).heap := by
    unfold deleteBox updateBoxLabels
    simp only [hidx, hklt, if_true, checkSubmitReady_heap]
  -- the box now at position `m`, which was at position `m'`
  have hat : ∀ (m m' : Nat) (r : Ref), (s.selectionBoxes.eraseIdx k)[m]? = some r →
      s.selectionBoxes[m']? = some r →
      (deleteBox s box).boxes[m]? = some { s.heap r with label := some (m + 1) } := by
    intro m m' r hm hm'
    rw [boxes_eq, List.getElem?_map, hsel, hm, Option.map_some', hheap, h3 m r hm]
    have hl := labelled_getElem s hlab m' r hm'
    simp [hl]
  refine ⟨hsel, ?_, ?_, ?_, ?_⟩
  · simp only [boxes_eq, List.length_map, hsel, List.length_eraseIdx, hklt, if_true]
    omega
  · intro j b hkj hb
    rw [boxes_eq, List.getElem?_map] at hb
    cases hr : s.selectionBoxes[j]? with
    | none => simp [hr] at hb
    | some r =>
      simp only [hr, Option.map_some', Option.some.injEq] at hb
      subst hb
      have hm : (s.selectionBoxes.eraseIdx k)[j - 1]? = some r := by
        rw [List.getElem?_eraseIdx, if_neg (by omega), show j - 1 + 1 = j by omega, hr]
      rw [hat (j - 1) j r hm hr, show j - 1 + 1 = j by omega]
  · intro i b hik hb
    rw [boxes_eq, List.getElem?_map] at hb
    cases hr : s.selectionBoxes[i]? with
    | none => simp [hr] at hb
    | some r =>
      simp only [hr, Option.map_some', Option.some.injEq] at hb
      subst hb
      have hm : (s.selectionBoxes.eraseIdx k)[i]? = some r := by
        rw [List.getElem?_eraseIdx, if_pos hik, hr]
      rw [hat i i r hm hr, ← labelled_getElem s hlab i r hr]
  · intro b hb
    rw [boxes_eq, hsel, List.mem_map] at hb
    obtain ⟨r, hr, rfl⟩ := hb
    obtain ⟨m, hm⟩ := List.mem_iff_getElem?.mp hr
    obtain ⟨m', hne, hm'⟩ := List.mem_eraseIdx_iff_getElem?.mp hr
    have hid : ((deleteBox s box).heap r).id = (s.heap r).id := by
      rw [hheap, h3 m r hm]
      split <;> rfl
    rw [hid]
    intro heq
    have hrb : r = box :=
      List.inj_on_of_nodup_map hids' (List.getElem?_mem hm') (List.getElem?_mem hk) heq
    subst hrb
    have hlt' : m' < s.selectionBoxes.length := (List.getElem?_eq_some.mp hm').1
    have := (@List.Nodup.getElem_inj_iff _ _ hnd m' hlt' k hklt).mp
      (by rw [(List.getElem?_eq_some.mp hm').2, hkget])
    exact hne this

/-- C9, at a concrete input: deleting the middle box of `threeBoxes`. -/
theorem deleteBox_renumbers_witness :
    (threeBoxes.boxes.map Box.id).Nodup ∧ threeBoxes.selectionBoxes[1]? = some 3
      ∧ threeBoxes.Labelled
      ∧ (deleteBox threeBoxes 3).selectionBoxes = threeBoxes.selectionBoxes.eraseIdx 1 :=
  ⟨by decide!, by decide!, by unfold State.Labelled; decide!,
    (deleteBox_renumbers threeBoxes 1 3 (by decide!) (by decide!)
      (by unfold State.Labelled; decide!)).1⟩

/-- C10. From a frame `f` with `0 ≤ f < totalFrames`, `n` runs of the play-timer callback
leave `currentFrame = (f + n) mod totalFrames`. The delay that `play` gives to `setInterval`
is `1000 / (frameRate * playbackSpeed)`, so the number of whole delays in a duration `T` is
`floor(T * frameRate * playbackSpeed / 1000)`. With the constructor's rate 5, speed 1 and 50
frames the delay is 200 ms, 10200 ms hold 51 delays, and 51 ticks from frame 0 give frame 1. -/
theorem tick_iterate_currentFrame (s : State) (n : Nat)
    (hT : 1 ≤ s.totalFrames) (h0 : 0 ≤ s.currentFrame) (h1 : s.currentFrame < s.totalFrames) :
    (tick^[n] s).currentFrame = (s.currentFrame + n) % s.totalFrames
      ∧ (∀ now, ((play s now).timers.getLast?).map Timer.delay = some (intervalDelay s))
      ∧ (s.frameRate * s.playbackSpeed ≠ 0 →
          ∃ d, intervalDelay s = .fin d ∧
            ∀ T : ℚ, ⌊T / d⌋ = ⌊T * s.frameRate * s.playbackSpeed / 1000⌋)
      ∧ (intervalDelay State.initial = .fin 200 ∧ ⌊(10200 : ℚ) / 200⌋ = 51
          ∧ (tick^[51] State.initial).currentFrame = 1) := by
  refine ⟨?_, ?_, ?_, ?_⟩
  · induction n with
    | zero => simp [Int.emod_eq_of_lt h0 h1]
    | succ k ih =>
      have hpos : (0 : Int) < s.totalFrames := by omega
      rw [Function.iterate_succ_apply', tick_currentFrame, tick_iterate_totalFrames, ih,
        Int.emod_add_emod]
      · push_cast
        rw [add_assoc]
      · rw [ih]
        exact Int.emod_nonneg _ (by omega)
      · rw [ih, tick_iterate_totalFrames]
        exact Int.emod_lt_of_pos _ hpos
  · intro now
    unfold play
    by_cases hw : s.hasWatchedVideo <;> by_cases hp : truthy s.videoPlayStartTime <;>
      simp [hw, hp, intervalDelay]
  · intro hne
    refine ⟨1000 / (s.frameRate * s.playbackSpeed), ?_, ?_⟩
    · unfold intervalDelay
      simp [Num.mul, Num.div, hne]
    · intro T
      congr 1
      field_simp
      ring
  · refine ⟨by decide!, by norm_num, by decide!⟩

/-- C10, at a concrete input: three ticks from frame 48 of 50 wrap to frame 1. -/
theorem tick_iterate_currentFrame_witness :
    (tick^[3] { State.initial with currentFrame := 48 }).currentFrame = 1 :=
  (tick_iterate_currentFrame { State.initial with currentFrame := 48 } 3
    (by decide) (by decide) (by decide)).1

/-- C11. From a freshly reset clip (`totalWatchTime = 0`, no start timestamp), `play` at
`t0`, `pause` at `t1`, `play` at `t2`, `pause` at `t3` leave
`totalWatchTime = (t1 - t0) + (t3 - t2)` and no start timestamp, for all readings of the
clock (`Date.now()` is a positive number of milliseconds, so `t0` and `t2` are not zero);
2000 ms and then 1000 ms of play give 3000. A `play` at `t` while already playing keeps the
timestamp `t0`, so the `pause` at `t1` that follows counts `t1 - t0` once. -/
theorem watch_time_accounting (s : State) (t0 t1 t2 t3 t : Int)
    (hreset : s.totalWatchTime = 0 ∧ s.videoPlayStartTime = none)
    (h0 : t0 ≠ 0) (h2 : t2 ≠ 0) :
    (pause (play (pause (play s t0) t1) t2) t3).totalWatchTime = (t1 - t0) + (t3 - t2)
      ∧ (pause (play (pause (play s t0) t1) t2) t3).videoPlayStartTime = none
      ∧ (pause (play (pause (play s 5000) 7000) 9000) 10000).totalWatchTime = 3000
      ∧ (play (play s t0) t).videoPlayStartTime = some t0
      ∧ (pause (play (play s t0) t) t1).totalWatchTime = t1 - t0 := by
  obtain ⟨hw, hs⟩ := hreset
  have start : ∀ (x : State) (a : Int), x.videoPlayStartTime = none →
      (play x a).videoPlayStartTime = some a := by
    intro x a hx
    rw [play_videoPlayStartTime, hx]; rfl
  have run : ∀ (x : State) (a b : Int), x.videoPlayStartTime = none → a ≠ 0 →
      (pause (play x a) b).totalWatchTime = x.totalWatchTime + (b - a)
        ∧ (pause (play x a) b).videoPlayStartTime = none := by
    intro x a b hx ha
    have := pause_flush (play x a) b a (start x a hx) ha
    rwa [play_totalWatchTime] at this
  have again : (play (play s t0) t).videoPlayStartTime = some t0 := by
    rw [play_videoPlayStartTime, start s t0 hs]
    simp [truthy, h0]
  obtain ⟨ha, hb⟩ := run s t0 t1 hs h0
  obtain ⟨hc, hd⟩ := run _ t2 t3 hb h2
  refine ⟨by rw [hc, ha, hw]; ring, hd, ?_, again, ?_⟩
  · obtain ⟨ha', hb'⟩ := run s 5000 7000 hs (by decide)
    obtain ⟨hc', _⟩ := run _ 9000 10000 hb' (by decide)
    rw [hc', ha', hw]; norm_num
  · have := (pause_flush (play (play s t0) t) t1 t0 again h0).1
    rw [this, play_totalWatchTime, play_totalWatchTime, hw]; ring

/-- C11, at a concrete input: on `twoClips`, play from 5000 to 7000 and from 9000 to 10000. -/
theorem watch_time_accounting_witness :
    (twoClips.totalWatchTime = 0 ∧ twoClips.videoPlayStartTime = none)
      ∧ (pause (play (pause (play twoClips 5000) 7000) 9000) 10000).totalWatchTime
          = (7000 - 5000) + (10000 - 9000) :=
  ⟨by decide, (watch_time_accounting twoClips 5000 7000 9000 10000 6000 (by decide)
    (by decide) (by decide)).1⟩

/-- C12, evaluated. `twoBoxesPlaying` is playing since 6000 with one live interval. The
scrubber's `input` handler with value 10 applies frame 10 and the tool is still playing, with
the same timestamp, nothing added to `totalWatchTime` and the interval live. From the same
state `nextFrame` at time 8500 pauses first: not playing, 2500 ms added to `totalWatchTime`,
no timestamp, no live interval, frame 1. -/
theorem scrubber_keeps_playing :
    twoBoxesPlaying.isPlaying = true
      ∧ twoBoxesPlaying.videoPlayStartTime = some 6000
      ∧ twoBoxesPlaying.totalWatchTime = 0
      ∧ twoBoxesPlaying.timers.map Timer.handle = [1]
      ∧ (scrubberInput twoBoxesPlaying 10).currentFrame = 10
      ∧ (scrubberInput twoBoxesPlaying 10).isPlaying = true
      ∧ (scrubberInput twoBoxesPlaying 10).videoPlayStartTime = some 6000
      ∧ (scrubberInput twoBoxesPlaying 10).totalWatchTime = 0
      ∧ (scrubberInput twoBoxesPlaying 10).timers.map Timer.handle = [1]
      ∧ (nextFrame twoBoxesPlaying 8500).isPlaying = false
      ∧ (nextFrame twoBoxesPlaying 8500).videoPlayStartTime = none
      ∧ (nextFrame twoBoxesPlaying 8500).totalWatchTime = 2500
      ∧ (nextFrame twoBoxesPlaying 8500).timers = []
      ∧ (nextFrame twoBoxesPlaying 8500).currentFrame = 1 := by
  refine ⟨by decide!, by decide!, by decide!, by decide!, by decide!, by decide!, by decide!,
    by decide!, by decide!, by decide!, by decide!, by decide!, by decide!, by decide!⟩

/-- C13. In a session with `currentVideoIndex < totalVideos` (so `totalVideos >= 1`), a
`submitAnnotation` that passes the readiness check and posts its record returns normally,
for every outcome of the request, and either `currentVideoIndex` is one more than before and
the tool has not navigated (when `currentVideoIndex < totalVideos - 1`), or, on the final
clip, the tool has navigated to `/thank_you` and `currentVideoIndex` is what it was.
`loadVideo(index)` with `index >= totalVideos` returns the state it was given. After any
sequence of events `totalVideos` is unchanged, `currentVideoIndex` has not decreased, and
`currentVideoIndex < totalVideos` holds. -/
theorem clip_position_progress (s : State) (hpos : s.currentVideoIndex < s.totalVideos) :
    (∀ (now : Int) (outcome : FetchOutcome) (video : Video),
        (checkSubmitReady s).submitDisabled = false → getCurrentVideo s = some video →
        (s.currentVideoIndex + 1 < s.totalVideos →
          ∃ r, submitAnnotation s now outcome = .ok r
            ∧ r.currentVideoIndex = s.currentVideoIndex + 1 ∧ r.totalVideos = s.totalVideos
            ∧ r.location = s.location)
        ∧ (s.currentVideoIndex + 1 = s.totalVideos →
          ∃ r, submitAnnotation s now outcome = .ok r
            ∧ r.currentVideoIndex = s.currentVideoIndex ∧ r.totalVideos = s.totalVideos
            ∧ r.location = some "/thank_you"))
      ∧ (∀ (index : Nat) (now : Int), s.totalVideos ≤ index → loadVideo s index now = .ok s)
      ∧ (∀ s', Reachable s s' →
          s'.totalVideos = s.totalVideos ∧ s.currentVideoIndex ≤ s'.currentVideoIndex
            ∧ s'.currentVideoIndex < s'.totalVideos) := by
  refine ⟨?_, ?_, ?_⟩
  · intro now outcome video hready hvideo
    obtain ⟨h1, h2⟩ := submitAnnotation_position s now outcome video hready hvideo
    exact ⟨h1, fun h => h2 (by omega)⟩
  · intro index now h
    exact (loadVideo_position s index now).2.1 h
  · intro s' h
    exact reachable_position s s' h hpos

/-- C13, at a concrete input: submitting `oneBoxRated`, on clip 0 of 2, and the state after
two submissions in a row. -/
theorem clip_position_progress_witness :
    oneBoxRated.currentVideoIndex < oneBoxRated.totalVideos
      ∧ (∃ r, submitAnnotation oneBoxRated 2000 (.fulfilled 200) = .ok r
          ∧ r.currentVideoIndex = oneBoxRated.currentVideoIndex + 1
          ∧ r.totalVideos = oneBoxRated.totalVideos ∧ r.location = oneBoxRated.location)
      ∧ (step (step oneBoxRated (.clickSubmit (.fulfilled 200)) 2000)
            (.clickSubmit (.fulfilled 200)) 3000).currentVideoIndex
          < (step (step oneBoxRated (.clickSubmit (.fulfilled 200)) 2000)
            (.clickSubmit (.fulfilled 200)) 3000).totalVideos :=
  ⟨by decide!,
    ((clip_position_progress oneBoxRated (by decide!)).1 2000 (.fulfilled 200)
      { index := 0, folder := "clip_a" } (by decide!) (by decide!)).1 (by decide!),
    ((clip_position_progress oneBoxRated (by decide!)).2.2 _
      (.next _ _ _ (.next _ _ _ .start))).2.2⟩

/-- C14 as stated fails: in `fastClips` the speed is 2, index 1 is below `totalVideos`, and
after `loadVideo(1)` the speed is still 2, not the initial 1. -/
theorem loadVideo_speed_counterexample :
    1 < fastClips.totalVideos
      ∧ fastClips.playbackSpeed = 2
      ∧ (loadVideo fastClips 1 3000).state.playbackSpeed = 2
      ∧ ¬ ((loadVideo fastClips 1 3000).state.playbackSpeed = 1) := by
  refine ⟨by decide!, by decide!, by decide!, by decide!⟩

/-- C14, amended. For every prior state and every `index < totalVideos` at which `videos`
has an entry, `loadVideo(index)` returns normally with `currentVideoIndex = index`,
`currentFrame = 0`, `isPlaying = false`, `hasWatchedVideo = false`, `totalWatchTime = 0`,
no start timestamp and an empty box collection; `playbackSpeed` is the one before the call. -/
theorem loadVideo_resets_playback (s : State) (index : Nat) (now : Int) (video : Video)
    (hi : index < s.totalVideos) (hv : s.videos[index]? = some video) :
    ∃ s', loadVideo s index now = .ok s'
      ∧ s'.currentVideoIndex = index
      ∧ s'.currentFrame = 0
      ∧ s'.isPlaying = false
      ∧ s'.hasWatchedVideo = false
      ∧ s'.totalWatchTime = 0
      ∧ s'.videoPlayStartTime = none
      ∧ s'.boxes = []
      ∧ s'.playbackSpeed = s.playbackSpeed := by
  unfold loadVideo
  rw [if_neg (Nat.not_le.mpr hi)]
  simp only [hv]
  obtain ⟨h1, h2, h3, h4, h5, h6, h7, h8, _⟩ := resetVideoState_playback
    (clearAllBoxes
      { s with currentVideoIndex := index, globalVideoIndex := s.globalVideoIndex + 1 }) now
  refine ⟨_, rfl, ?_, h1, h2, h3, h4, h5, ?_, ?_⟩
  · rw [h8]; rfl
  · rw [boxes_eq, h7]
    simp [clearAllBoxes, shiftAll_eq_nil]
  · rw [h6]; rfl

/-- C14 amended, at a concrete input: loading clip 1 while `twoBoxesPlaying` plays. -/
theorem loadVideo_resets_playback_witness :
    1 < twoBoxesPlaying.totalVideos
      ∧ ∃ s', loadVideo twoBoxesPlaying 1 8000 = .ok s' ∧ s'.currentVideoIndex = 1
          ∧ s'.currentFrame = 0 ∧ s'.isPlaying = false :=
  ⟨by decide!,
    let ⟨s', h1, h2, h3, h4, _⟩ := loadVideo_resets_playback twoBoxesPlaying 1 8000
      { index := 1, folder := "clip_b" } (by decide!) (by decide!)
    ⟨s', h1, h2, h3, h4⟩⟩

/-- C15. With an image of non-zero width and height, mapping a pointer position to logical
space as `startDrawing` does and back to display space as `updateBoxPosition` does returns
the pointer's offset from the image origin, in x and in y; accordingly the box that
`startDrawing` creates is placed at that offset from the image's position in the canvas, with
size zero. `updateBoxPosition` and `repositionAllBoxes` leave the four stored coordinates of
every box as they were, whatever the layout, and `repositionAllBoxes` leaves the collection
as it was. -/
theorem geometry_round_trip (s : State) (e : MouseEvent) (lay other : Layout) (now : Int)
    (box : Ref) (hw : lay.image.width ≠ 0) (hh : lay.image.height ≠ 0) :
    Num.mul
        (Num.div
          (Num.mul (Num.div (.fin (e.clientX - lay.image.left)) (.fin lay.image.width))
            NORMALIZED_WIDTH)
          NORMALIZED_WIDTH)
        (.fin lay.image.width) = .fin (e.clientX - lay.image.left)
      ∧ Num.mul
        (Num.div
          (Num.mul (Num.div (.fin (e.clientY - lay.image.top)) (.fin lay.image.height))
            NORMALIZED_HEIGHT)
          NORMALIZED_HEIGHT)
        (.fin lay.image.height) = .fin (e.clientY - lay.image.top)
      ∧ ((startDrawing s e lay now).heap s.nextRef).style = some
          { left := .fin (lay.image.left - lay.canvas.left + (e.clientX - lay.image.left))
            top := .fin (lay.image.top - lay.canvas.top + (e.clientY - lay.image.top))
            width := .fin 0
            height := .fin 0 }
      ∧ (∀ r, ((updateBoxPosition s box other).heap r).rect = (s.heap r).rect)
      ∧ (∀ r, ((repositionAllBoxes s other).heap r).rect = (s.heap r).rect)
      ∧ (repositionAllBoxes s other).selectionBoxes = s.selectionBoxes
      ∧ (repositionAllBoxes s other).boxes.map Box.rect = s.boxes.map Box.rect := by
  obtain ⟨hsel, hrect⟩ := repositionEach_keeps other s.selectionBoxes s
  refine ⟨display_of_normalizedX _ _ hw, display_of_normalizedY _ _ hh,
    startDrawing_style s e lay now hw hh, updateBoxPosition_rect s box other, hrect, hsel, ?_⟩
  simp only [boxes_eq, List.map_map]
  rw [show (repositionAllBoxes s other).selectionBoxes = s.selectionBoxes from hsel]
  apply List.map_congr_left
  intro r _
  exact hrect r

/-- C15, at a concrete input: a press at (300,200) on an image of 960 by 540 shown at (40,30)
in a canvas at (10,10); the new box is displayed at (30 + 260, 20 + 170). -/
theorem geometry_round_trip_witness :
    ((startDrawing twoClips { clientX := 300, clientY := 200 } halfLayout 1000).heap
        twoClips.nextRef).style = some
      { left := .fin (40 - 10 + (300 - 40)), top := .fin (30 - 10 + (200 - 30)),
        width := .fin 0, height := .fin 0 } :=
  (geometry_round_trip twoClips { clientX := 300, clientY := 200 } halfLayout zeroLayout 1000 0
    (by decide!) (by decide!)).2.2.1

end VideoAnnotationTool
